import Mathlib

/-!
# Scream unix receiver: network packet decoder and ALSA output

A shallow embedding of `Receivers/unix/network.c` (`rcv_network`) and
`Receivers/unix/alsa.c` (`setup_alsa`, `close_alsa`, `alsa_output_init`,
`alsa_output_send`) together with the properties of the design document that
can be settled on that code.

Conventions of the embedding.

* `unsigned char`, `uint16_t` and `unsigned int` values are natural numbers; the
  range of the C type is a hypothesis where it matters and the one product the
  code computes in `int` is reduced modulo `2 ^ 32` explicitly.
* A `snd_pcm_t *` is a natural number, `NULL` is `none`.
* The channel map is the block that `alsa_output_init` allocates: the number of
  `pos` slots of the block is the constant `MAX_CHANNELS` of alsa.h, a parameter
  here, and every store into `pos` at an index past the block is recorded as such
  (`snd_pcm_chmap_t.past_block`).
* The ALSA library is an oracle (`AlsaDevice`) that fixes, for one call of
  `alsa_output_send`, the return value of every library call the code can make.
* The set of pcm handles that are open in the library is carried next to
  `ao_data` (`AlsaState.open_pcms`), and every call of `alsa_output_send`
  reports the library calls it made (`AlsaCall`).
-/

namespace Scream

/-! ## scream.h -/

/-- The struct `receiver_format_t` of scream.h. Equality of two values stands for
the `memcmp` of the source (padding bytes are not modelled). -/
structure receiver_format where
  sample_rate : Nat
  sample_size : Nat
  channels : Nat
  channel_map : Nat
deriving DecidableEq, Repr

/-- The struct `receiver_data_t` of scream.h. The pointer `audio` is the list of
bytes that starts at the pointed address. -/
structure receiver_data where
  format : receiver_format
  audio_size : Nat
  audio : List Nat
  timed_out : Int
  prev_timed_out : Int
deriving DecidableEq, Repr

/-! ## ALSA types used by alsa.c -/

/-- The three values of `snd_pcm_format_t` that alsa.c uses. -/
inductive snd_pcm_format_t where
  | SND_PCM_FORMAT_S16_LE
  | SND_PCM_FORMAT_S24_3LE
  | SND_PCM_FORMAT_S32_LE
deriving DecidableEq, Repr

/-- The channel positions of `enum snd_pcm_chmap_position` that alsa.c uses;
`SND_CHMAP_UNKNOWN` also stands for a slot of `pos` that was never written. -/
inductive snd_pcm_chmap_position where
  | SND_CHMAP_UNKNOWN
  | SND_CHMAP_MONO
  | SND_CHMAP_FL
  | SND_CHMAP_FR
  | SND_CHMAP_FC
  | SND_CHMAP_LFE
  | SND_CHMAP_RL
  | SND_CHMAP_RR
  | SND_CHMAP_FLC
  | SND_CHMAP_FRC
  | SND_CHMAP_RC
  | SND_CHMAP_SL
  | SND_CHMAP_SR
deriving DecidableEq, Repr

open snd_pcm_format_t snd_pcm_chmap_position

/-- The struct `snd_pcm_chmap_t` as alsa.c allocates it: a channel count and the
array `pos`, in a block with room for `slots` entries of `pos`. The memory is
addressed by every index, so that a store past the block can be followed; the
indices of the stores made past the block are kept in `past_block`, in the order
they were made. Such a store is an out-of-bounds write of the C program. -/
structure snd_pcm_chmap_t where
  channels : Nat
  pos : Nat → snd_pcm_chmap_position
  slots : Nat
  past_block : List Nat

/-- The assignment `channel_map->pos[i] = v`: inside the block when `i < slots`,
recorded as a write past the block otherwise. -/
def snd_pcm_chmap_t.store (m : snd_pcm_chmap_t) (i : Nat) (v : snd_pcm_chmap_position) :
    snd_pcm_chmap_t :=
  { m with
    pos := Function.update m.pos i v
    past_block := if i < m.slots then m.past_block else m.past_block ++ [i] }

/-- The call `malloc(sizeof(snd_pcm_chmap_t) + max_channels*sizeof(unsigned int))`:
a block with `max_channels` slots, none of them written. -/
def malloc_chmap (max_channels : Nat) : snd_pcm_chmap_t :=
  { channels := 0, pos := fun _ => SND_CHMAP_UNKNOWN, slots := max_channels, past_block := [] }

/-- The channel layout a device is handed: the first `channels` slots of `pos`. -/
def snd_pcm_chmap_t.layout (m : snd_pcm_chmap_t) : List snd_pcm_chmap_position :=
  (List.range m.channels).map m.pos

/-- The static struct `ao_data` of alsa.c. -/
structure alsa_output_data where
  channel_map : snd_pcm_chmap_t
  snd : Option Nat
  receiver_format : receiver_format
  rate : Nat
  bytes_per_sample : Nat
  latency : Int
  alsa_device : String

/-! ## Rate derivation (alsa.c line 231) -/

/-- The expression `((rf->sample_rate >= 128) ? 44100 : 48000) * (rf->sample_rate % 128)`
stored into the `unsigned int` field `ao_data.rate`. -/
def derive_rate (sample_rate : Nat) : Nat :=
  ((if sample_rate ≥ 128 then 44100 else 48000) * (sample_rate % 128)) % 2 ^ 32

/-! ## Channel map (alsa.c lines 242-299) -/

/-- The inner loop `for (int j = k+1; j<=10; j++)` of the channel mapping: the
value of `k` when the loop is left. The first argument bounds the number of
iterations; the loop runs at most eleven times since `j` starts at `k+1 ≥ 0`. -/
def scan_key (channel_map : Nat) (k : Int) : Nat → Int → Int
  | 0, _ => k
  | n + 1, j =>
    if j ≤ 10 then
      if (channel_map >>> j.toNat) &&& 1 ≠ 0 then j
      else scan_key channel_map k n (j + 1)
    else k

/-- The `switch (k)` that maps a key to an ALSA channel position. -/
def chmap_of_key (k : Int) : snd_pcm_chmap_position :=
  if k = 0 then SND_CHMAP_FL
  else if k = 1 then SND_CHMAP_FR
  else if k = 2 then SND_CHMAP_FC
  else if k = 3 then SND_CHMAP_LFE
  else if k = 4 then SND_CHMAP_RL
  else if k = 5 then SND_CHMAP_RR
  else if k = 6 then SND_CHMAP_FLC
  else if k = 7 then SND_CHMAP_FRC
  else if k = 8 then SND_CHMAP_RC
  else if k = 9 then SND_CHMAP_SL
  else if k = 10 then SND_CHMAP_SR
  else SND_CHMAP_FC

/-- The outer loop `for (int i=0; i<rf->channels; i++)`: the first argument is the
number of iterations left, `i` the loop counter, `k` the key of the previous
iteration. Every iteration runs the inner scan from `k+1` and stores the position
of the resulting `k` into `pos[i]`. -/
def map_channels (channel_map : Nat) :
    Nat → Nat → Int → snd_pcm_chmap_t → snd_pcm_chmap_t
  | 0, _, _, m => m
  | n + 1, i, k, m =>
    let k1 := scan_key channel_map k 11 (k + 1)
    map_channels channel_map n (i + 1) k1 (m.store i (chmap_of_key k1))

/-- Lines 242-299: the channel map after a format change. -/
def update_channel_map (m : snd_pcm_chmap_t) (rf : receiver_format) : snd_pcm_chmap_t :=
  let m1 := { m with channels := rf.channels }
  if rf.channels = 1 then m1.store 0 SND_CHMAP_MONO
  else map_channels rf.channel_map rf.channels 0 (-1) m1

/-- The channel layout produced for a channel count and a channel mask on a
channel map block. -/
def channel_layout (m : snd_pcm_chmap_t) (channels channel_map : Nat) :
    List snd_pcm_chmap_position :=
  (update_channel_map m
    { sample_rate := 0, sample_size := 0, channels := channels,
      channel_map := channel_map }).layout

/-- The stores past the block that the channel mapping makes for a channel count
and a channel mask on a channel map block. -/
def channel_past_block (m : snd_pcm_chmap_t) (channels channel_map : Nat) : List Nat :=
  (update_channel_map m
    { sample_rate := 0, sample_size := 0, channels := channels,
      channel_map := channel_map }).past_block

/-! ### The channel mapper as the design document words it -/

/-- The canonical speaker roles in ascending bit order, as the design document
lists them. -/
def canonical_roles : List snd_pcm_chmap_position :=
  [SND_CHMAP_FL, SND_CHMAP_FR, SND_CHMAP_FC, SND_CHMAP_LFE, SND_CHMAP_RL, SND_CHMAP_RR,
   SND_CHMAP_FLC, SND_CHMAP_FRC, SND_CHMAP_RC, SND_CHMAP_SL, SND_CHMAP_SR]

/-- The role at a canonical index (Front-Center beyond the table). -/
def canonical_role (k : Nat) : snd_pcm_chmap_position :=
  canonical_roles.getD k SND_CHMAP_FC

/-- The set bits of a mask among positions 0..10, lowest first. -/
def set_bits (channel_map : Nat) : List Nat :=
  (List.range 11).filter (fun j => channel_map.testBit j)

/-! ## The ALSA library as an oracle -/

/-- The value of `EBUSY` in errno.h (Linux). -/
def EBUSY : Int := 16

/-- The value of `ENOENT` in errno.h (Linux). -/
def ENOENT : Int := 2

/-- The value of `ENXIO` in errno.h (Linux). -/
def ENXIO : Int := 6

/-- The value of `EBADFD` in errno.h (Linux). -/
def EBADFD : Int := 77

/-- The answers of the ALSA library during one call of `alsa_output_send`: the
return value of each library function for the arguments it is called with, and
the handle `pcm` that a successful `snd_pcm_open` stores. `snd_pcm_writei` also
receives the number of write calls made before it in the same cycle, so that
successive calls can be answered differently. -/
structure AlsaDevice where
  snd_pcm_open : String → Int
  pcm : Nat
  snd_pcm_set_params : Nat → Option snd_pcm_format_t → Nat → Nat → Int → Int
  snd_pcm_set_chmap : Nat → List snd_pcm_chmap_position → Int
  snd_pcm_close : Nat → Int
  snd_pcm_writei : Nat → Nat → Int → Int → Int
  snd_pcm_recover : Nat → Int → Int

/-- The library calls that `alsa_output_send` reports: `close` is a call of
`snd_pcm_close`, `setup` a call of `setup_alsa` (an open attempt) with its
arguments and return value, `writei` a call of `snd_pcm_writei` with the byte
offset into `audio`, the frame count requested and the value returned, `recover`
a call of `snd_pcm_recover`. The sample format of `setup` is `none` when the
local variable `format` of `alsa_output_send` was not assigned. -/
inductive AlsaCall where
  | close (pcm : Nat)
  | setup (format : Option snd_pcm_format_t) (rate : Nat) (latency : Int) (device : String)
      (channels : Nat) (layout : List snd_pcm_chmap_position) (ret : Int)
  | writei (pcm : Nat) (offset : Int) (frames : Int) (written : Int)
  | recover (pcm : Nat) (err : Int)
deriving DecidableEq, Repr

/-- The static `ao_data` together with the pcm handles that are open in the
library (opened by `snd_pcm_open` and not yet passed to `snd_pcm_close`). -/
structure AlsaState where
  ao_data : alsa_output_data
  open_pcms : List Nat

/-- The function `setup_alsa`: return value, the new content of `*psnd`, and the
open handles. `SNDCHK` returns -1 on a negative return value. The parameter
`target_latency_ms` and the local `latency` are `unsigned int`: the argument is
converted and the product is taken modulo `2 ^ 32`. -/
def setup_alsa (dev : AlsaDevice) (open_pcms : List Nat) (psnd : Option Nat)
    (format : Option snd_pcm_format_t) (rate : Nat) (target_latency_ms : Int)
    (output_device : String) (channels : Nat) (channel_map : snd_pcm_chmap_t) :
    Int × Option Nat × List Nat :=
  let latency := ((target_latency_ms % 2 ^ 32) * 1000) % 2 ^ 32
  let ret := dev.snd_pcm_open output_device
  if ret = -EBUSY ∨ ret = -ENOENT then (-2, psnd, open_pcms)
  else if ret < 0 then (-1, psnd, open_pcms)
  else
    let snd := dev.pcm
    let open_pcms := snd :: open_pcms
    let ret := dev.snd_pcm_set_params snd format channels rate latency
    if ret < 0 then (-1, some snd, open_pcms)
    else
      let ret := dev.snd_pcm_set_chmap snd channel_map.layout
      if ret = - ENXIO then (0, some snd, open_pcms)
      else if ret = -EBADFD then (0, some snd, open_pcms)
      else if ret < 0 then (-1, some snd, open_pcms)
      else (0, some snd, open_pcms)

/-- The function `close_alsa`: `snd_pcm_close` releases the handle whatever it
returns. -/
def close_alsa (dev : AlsaDevice) (open_pcms : List Nat) (snd : Option Nat) :
    Int × List Nat :=
  match snd with
  | none => (0, open_pcms)
  | some h => (if dev.snd_pcm_close h < 0 then -1 else 0, open_pcms.erase h)

/-- The zero-initialised static `ao_data` before `alsa_output_init`; the null
`channel_map` pointer is a block without slots. -/
def ao_data_static : alsa_output_data :=
  { channel_map := malloc_chmap 0
    snd := none
    receiver_format := { sample_rate := 0, sample_size := 0, channels := 0, channel_map := 0 }
    rate := 0
    bytes_per_sample := 0
    latency := 0
    alsa_device := "" }

/-- The function `alsa_output_init` with `verbosity = 0` (the diagnostic
`print_supported_pcm_params` is not called). The channel map is allocated with
`max_channels` slots, the value of the constant `MAX_CHANNELS` of alsa.h. -/
def alsa_output_init (ao : alsa_output_data) (max_channels : Nat) (latency : Int)
    (alsa_device : String) : alsa_output_data :=
  { ao with
    receiver_format := { sample_rate := 0, sample_size := 0, channels := 2, channel_map := 0x0003 }
    latency := latency
    alsa_device := alsa_device
    snd := none
    channel_map :=
      (({ malloc_chmap max_channels with channels := 2 }.store 0 SND_CHMAP_FL).store 1
        SND_CHMAP_FR) }

/-- The state of the process after `alsa_output_init`: no pcm handle is open. -/
def init_state (max_channels : Nat) (latency : Int) (alsa_device : String) : AlsaState :=
  { ao_data := alsa_output_init ao_data_static max_channels latency alsa_device,
    open_pcms := [] }

/-- Lines 229-299 of `alsa_output_send`, run when the format changed: the new
`ao_data` and the value of the local variable `format` (`none` when the `switch`
takes its `default` branch and leaves it unassigned). -/
def apply_format (ao : alsa_output_data) (rf : receiver_format) :
    alsa_output_data × Option snd_pcm_format_t :=
  let ao := { ao with receiver_format := rf, rate := derive_rate rf.sample_rate }
  let r : alsa_output_data × Option snd_pcm_format_t :=
    if rf.sample_size = 16 then
      ({ ao with bytes_per_sample := 2 }, some SND_PCM_FORMAT_S16_LE)
    else if rf.sample_size = 24 then
      ({ ao with bytes_per_sample := 3 }, some SND_PCM_FORMAT_S24_3LE)
    else if rf.sample_size = 32 then
      ({ ao with bytes_per_sample := 4 }, some SND_PCM_FORMAT_S32_LE)
    else ({ ao with rate := 0 }, none)
  ({ r.1 with channel_map := update_channel_map r.1.channel_map rf }, r.2)

/-- Lines 302-328 of `alsa_output_send`: when the derived rate is not 0, close the
handle held and call `setup_alsa` with the local variable `format`. -/
def reopen (dev : AlsaDevice) (open_pcms : List Nat) (ao : alsa_output_data)
    (format : Option snd_pcm_format_t) (rf : receiver_format) : AlsaState × List AlsaCall :=
  if ao.rate ≠ 0 then
    let closed := close_alsa dev open_pcms ao.snd
    let close_calls : List AlsaCall :=
      match ao.snd with
      | some h => [AlsaCall.close h]
      | none => []
    let s := setup_alsa dev closed.2 ao.snd format ao.rate ao.latency ao.alsa_device
      rf.channels ao.channel_map
    let calls := close_calls ++
      [AlsaCall.setup format ao.rate ao.latency ao.alsa_device rf.channels
        ao.channel_map.layout s.1]
    if s.1 = -1 then
      ({ ao_data := { ao with snd := none, rate := 0 }, open_pcms := s.2.2 }, calls)
    else if s.1 = -2 then
      ({ ao_data := { ao with snd := none }, open_pcms := s.2.2 }, calls)
    else
      ({ ao_data := { ao with snd := s.2.1 }, open_pcms := s.2.2 }, calls)
  else ({ ao_data := ao, open_pcms := open_pcms }, [])

/-- Lines 225-329 of `alsa_output_send`: format tracking, reconfiguration and
(re)opening of the device. The local variable `format` has no initialiser: it is
`none` unless the format changed in this call. -/
def reconfigure (dev : AlsaDevice) (st : AlsaState) (rf : receiver_format) :
    AlsaState × List AlsaCall :=
  let format_changed : Bool := decide (st.ao_data.receiver_format ≠ rf)
  if format_changed = true ∨ st.ao_data.snd = none then
    if format_changed = true then
      reopen dev st.open_pcms (apply_format st.ao_data rf).1 (apply_format st.ao_data rf).2 rf
    else
      reopen dev st.open_pcms st.ao_data none rf
  else (st, [])

/-- The loop `while (i < samples)` of `alsa_output_send` (lines 338-348): the
library calls made and the value returned by `alsa_output_send`. The first
argument bounds the number of iterations (`none`: the loop has not ended within
the bound), `n` counts the write calls already made, `i` is the loop variable. -/
def write_frames (dev : AlsaDevice) (snd bytes_per_sample channels : Nat) (samples : Int) :
    Nat → Nat → Int → Option (List AlsaCall × Int)
  | 0, _, i => if i < samples then none else some ([], 0)
  | fuel + 1, n, i =>
    if i < samples then
      let offset := i * bytes_per_sample * channels
      let written := dev.snd_pcm_writei snd n offset (samples - i)
      let call := AlsaCall.writei snd offset (samples - i) written
      if written < 0 then
        let ret := dev.snd_pcm_recover snd written
        if ret < 0 then some ([call, AlsaCall.recover snd written], -1)
        else some ([call, AlsaCall.recover snd written], 0)
      else
        match write_frames dev snd bytes_per_sample channels samples fuel (n + 1) (i + written) with
        | none => none
        | some (calls, ret) => some (call :: calls, ret)
    else some ([], 0)

/-- What one call of `alsa_output_send` leaves behind. -/
structure SendResult where
  state : AlsaState
  calls : List AlsaCall
  ret : Int

/-- How a call ends: it returns, it divides by zero at line 337, or its write
loop has not ended within the iteration bound. -/
inductive Outcome (α : Type) where
  | done (a : α)
  | division_by_zero
  | out_of_fuel

/-- The function `alsa_output_send`. -/
def alsa_output_send (dev : AlsaDevice) (fuel : Nat) (st : AlsaState) (data : receiver_data) :
    Outcome SendResult :=
  if data.timed_out ≠ 0 then
    match st.ao_data.snd with
    | some h =>
      Outcome.done
        { state := { ao_data := { st.ao_data with snd := none },
                     open_pcms := (close_alsa dev st.open_pcms (some h)).2 }
          calls := [AlsaCall.close h]
          ret := 0 }
    | none => Outcome.done { state := st, calls := [], ret := 0 }
  else
    let r := reconfigure dev st data.format
    let ao := r.1.ao_data
    match ao.snd with
    | none => Outcome.done { state := r.1, calls := r.2, ret := 0 }
    | some h =>
      if ao.rate = 0 then Outcome.done { state := r.1, calls := r.2, ret := 0 }
      else if ao.bytes_per_sample * data.format.channels = 0 then Outcome.division_by_zero
      else
        let samples : Int := ((data.audio_size / (ao.bytes_per_sample * data.format.channels) : Nat) : Int)
        match write_frames dev h ao.bytes_per_sample data.format.channels samples fuel 0 0 with
        | none => Outcome.out_of_fuel
        | some (calls, ret) => Outcome.done { state := r.1, calls := r.2 ++ calls, ret := ret }

/-- The receive loop of the caller, one call of `alsa_output_send` per cycle with
the library answers of that cycle: the final state and the library calls of each
cycle. -/
def run_cycles (fuel : Nat) :
    AlsaState → List (AlsaDevice × receiver_data) → Outcome (AlsaState × List (List AlsaCall))
  | st, [] => Outcome.done (st, [])
  | st, c :: rest =>
    match alsa_output_send c.1 fuel st c.2 with
    | Outcome.done r =>
      match run_cycles fuel r.state rest with
      | Outcome.done (st1, traces) => Outcome.done (st1, r.calls :: traces)
      | Outcome.division_by_zero => Outcome.division_by_zero
      | Outcome.out_of_fuel => Outcome.out_of_fuel
    | Outcome.division_by_zero => Outcome.division_by_zero
    | Outcome.out_of_fuel => Outcome.out_of_fuel

/-- An open attempt: a call of `setup_alsa`. -/
def AlsaCall.is_setup : AlsaCall → Bool
  | AlsaCall.setup _ _ _ _ _ _ _ => true
  | _ => false

/-- A call of `snd_pcm_writei`. -/
def AlsaCall.is_writei : AlsaCall → Bool
  | AlsaCall.writei _ _ _ _ => true
  | _ => false

/-- The frames accepted by the write calls of a cycle. -/
def frames_written : List AlsaCall → Int
  | [] => 0
  | AlsaCall.writei _ _ _ written :: rest => written + frames_written rest
  | _ :: rest => frames_written rest

/-! ## network.c -/

/-- Modelled from the spec: the constant `HEADER_SIZE` is defined in network.h,
which is not among the sources; the design document gives the header size as
5 bytes (and `rcv_network` reads `buf[0]` to `buf[4]` and takes `&buf[5]`). -/
def HEADER_SIZE : Int := 5

/-- What one call of `recvfrom` does: `EAGAIN` is a receive timeout (errno
`EAGAIN` or `EWOULDBLOCK`), `error` any other failure, `datagram` a datagram. -/
inductive recvfrom_result where
  | EAGAIN
  | error
  | datagram (bytes : List Nat)
deriving DecidableEq, Repr

/-- The call `recvfrom(sockfd, buf, MAX_SO_PACKETSIZE, 0, NULL, 0)`: the return
value and the receive buffer. A datagram is cut to `max_so_packetsize` bytes
(the constant `MAX_SO_PACKETSIZE` of network.h, a parameter here) and overwrites the
start of the buffer. -/
def recvfrom (max_so_packetsize : Nat) (buf : List Nat) : recvfrom_result → Int × List Nat
  | recvfrom_result.datagram bytes =>
    let rx := bytes.take max_so_packetsize
    ((rx.length : Int), rx ++ buf.drop rx.length)
  | _ => (-1, buf)

/-- The loop `while (n<HEADER_SIZE)` of `rcv_network` over the results of the
successive `recvfrom` calls: the final `n`, the buffer, `timed_out` and the
results not consumed; `none` when the loop is still waiting after the last one. -/
def rcv_loop (max_so_packetsize : Nat) :
    List recvfrom_result → Int → List Nat → Option (Int × List Nat × Int × List recvfrom_result)
  | [], n, buf => if n < HEADER_SIZE then none else some (n, buf, 0, [])
  | r :: rest, n, buf =>
    if n < HEADER_SIZE then
      let rc := recvfrom max_so_packetsize buf r
      if r = recvfrom_result.EAGAIN then some (rc.1, rc.2, 1, rest)
      else rcv_loop max_so_packetsize rest rc.1 rc.2
    else some (n, buf, 0, r :: rest)

/-- Lines 53-56 of `rcv_network`: the four format fields read from the buffer;
`channel_map` is a `uint16_t`. -/
def decode_header (buf : List Nat) : receiver_format :=
  { sample_rate := buf.getD 0 0
    sample_size := buf.getD 1 0
    channels := buf.getD 2 0
    channel_map := ((buf.getD 4 0 <<< 8) ||| buf.getD 3 0) % 2 ^ 16 }

/-- The function `rcv_network`: the updated `receiver_data`, the receive buffer
and the `recvfrom` results left for later calls. -/
def rcv_network (max_so_packetsize : Nat) (buf : List Nat) (receiver_data : receiver_data)
    (incoming : List recvfrom_result) :
    Option (Scream.receiver_data × List Nat × List recvfrom_result) :=
  let rd := { receiver_data with prev_timed_out := receiver_data.timed_out, timed_out := 0 }
  match rcv_loop max_so_packetsize incoming 0 buf with
  | none => none
  | some (n, buf1, timed_out, rest) =>
    if timed_out ≠ 0 then some ({ rd with timed_out := 1 }, buf1, rest)
    else
      some ({ rd with
              format := decode_header buf1
              audio_size := ((n - HEADER_SIZE) % 2 ^ 32).toNat
              audio := buf1.drop 5 }, buf1, rest)

/-- The header bytes that encode a format, as the wire format of the design
document lays them out: rate code, sample size, channel count, then the channel
mask low byte first. -/
def encode_header (f : receiver_format) : List Nat :=
  [f.sample_rate, f.sample_size, f.channels, f.channel_map % 256, f.channel_map / 256]

/-! ## Auxiliary descriptions used in the proofs -/

/-- The set bits of a mask among positions `j..10`, lowest first. -/
def bits_above (channel_map j : Nat) : List Nat :=
  (List.range' j (11 - j)).filter (fun b => channel_map.testBit b)

/-- The layout the two loops build, told from the list of set bits that are still
ahead of the scan: a channel takes the next set bit when there is one, and the
key of the previous channel when there is none. -/
def layout_from : List Nat → Int → Nat → List snd_pcm_chmap_position
  | _, _, 0 => []
  | [], k, n + 1 => chmap_of_key k :: layout_from [] k n
  | b :: rest, _, n + 1 => chmap_of_key (b : Int) :: layout_from rest (b : Int) n


/-- The write calls of a cycle form a chain from frame `i`: every call is a
`snd_pcm_writei` on the handle, at byte offset `i * bytes_per_sample * channels`,
asking for `samples - i` frames, where `i` is the number of frames accepted by the
calls before it; and the chain ends when `samples` frames have been accepted. -/
def write_chain (snd bytes_per_sample channels : Nat) (samples : Int) :
    Int → List AlsaCall → Prop
  | i, [] => i = samples
  | i, AlsaCall.writei pcm offset frames written :: rest =>
    pcm = snd ∧ offset = i * bytes_per_sample * channels ∧ frames = samples - i
      ∧ 1 ≤ written ∧ written ≤ frames
      ∧ write_chain snd bytes_per_sample channels samples (i + written) rest
  | _, _ :: _ => False

/-- The states the process can be in: the state after `alsa_output_init`, and the
state after any call of `alsa_output_send` that returns, whatever the packet and
whatever the library answers. -/
inductive Reachable (max_channels : Nat) (latency : Int) (alsa_device : String) :
    AlsaState → Prop where
  | init : Reachable max_channels latency alsa_device
      (init_state max_channels latency alsa_device)
  | send (dev : AlsaDevice) (fuel : Nat) (st : AlsaState) (data : receiver_data)
      (r : SendResult) :
      Reachable max_channels latency alsa_device st →
      alsa_output_send dev fuel st data = Outcome.done r →
      Reachable max_channels latency alsa_device r.state

/-- The sample sizes the `switch` of `alsa_output_send` supports. -/
def supported_sample_size (sample_size : Nat) : Prop :=
  sample_size = 16 ∨ sample_size = 24 ∨ sample_size = 32

/-- The bytes per sample agree with the remembered format whenever the derived
rate is not 0. -/
def bytes_match (ao : alsa_output_data) : Prop :=
  ao.rate ≠ 0 →
    (ao.receiver_format.sample_size = 16 ∧ ao.bytes_per_sample = 2)
    ∨ (ao.receiver_format.sample_size = 24 ∧ ao.bytes_per_sample = 3)
    ∨ (ao.receiver_format.sample_size = 32 ∧ ao.bytes_per_sample = 4)

/-! ## Observations and sample devices -/

/-- The part of a result that can be compared: the handle held, the derived rate,
the bytes per sample, the open handles, the library calls and the return value. -/
structure Observation where
  snd : Option Nat
  rate : Nat
  bytes_per_sample : Nat
  open_pcms : List Nat
  calls : List AlsaCall
  ret : Int
deriving DecidableEq, Repr

/-- The observation of a result. -/
def SendResult.observe (r : SendResult) : Observation :=
  { snd := r.state.ao_data.snd
    rate := r.state.ao_data.rate
    bytes_per_sample := r.state.ao_data.bytes_per_sample
    open_pcms := r.state.open_pcms
    calls := r.calls
    ret := r.ret }

/-- The observation of a call, when it returns. -/
def Outcome.observe? : Outcome SendResult → Option Observation
  | Outcome.done r => some r.observe
  | _ => none

/-- The state after a call that is known to return (the state is kept when the
call does not return). -/
def next_state (dev : AlsaDevice) (fuel : Nat) (st : AlsaState) (data : receiver_data) :
    AlsaState :=
  match alsa_output_send dev fuel st data with
  | Outcome.done r => r.state
  | _ => st

/-- A device that opens as handle 7, accepts every parameter and channel map,
and takes every frame of every write. -/
def dev_ok : AlsaDevice :=
  { snd_pcm_open := fun _ => 0
    pcm := 7
    snd_pcm_set_params := fun _ _ _ _ _ => 0
    snd_pcm_set_chmap := fun _ _ => 0
    snd_pcm_close := fun _ => 0
    snd_pcm_writei := fun _ _ _ frames => frames
    snd_pcm_recover := fun _ _ => 0 }

/-- A device that is busy: `snd_pcm_open` returns `-EBUSY`. -/
def dev_busy : AlsaDevice := { dev_ok with snd_pcm_open := fun _ => -EBUSY }

/-- A device that opens as handle 7 and rejects the parameters with `-EINVAL`. -/
def dev_bad_params : AlsaDevice := { dev_ok with snd_pcm_set_params := fun _ _ _ _ _ => -22 }

/-- A device that takes one frame per write call. -/
def dev_one_frame : AlsaDevice := { dev_ok with snd_pcm_writei := fun _ _ _ _ => 1 }

/-- A packet: not a timeout, with the format given and `audio_size` zero bytes. -/
def packet (sample_rate sample_size channels channel_map audio_size : Nat) : receiver_data :=
  { format := { sample_rate := sample_rate, sample_size := sample_size, channels := channels,
                channel_map := channel_map }
    audio_size := audio_size
    audio := List.replicate audio_size 0
    timed_out := 0
    prev_timed_out := 0 }

/-- The receive timeout marker that follows a packet: `rcv_network` leaves the
format of the packet before in place and sets `timed_out`. -/
def timeout_after (d : receiver_data) : receiver_data :=
  { d with timed_out := 1, prev_timed_out := d.timed_out }

/-! ## Channel mapper: proofs -/

theorem bit_test_eq (m j : Nat) : ((m >>> j) &&& 1 ≠ 0) ↔ m.testBit j = true := by
  unfold Nat.testBit
  rw [Nat.and_comm]
  simp

theorem set_bits_eq (m : Nat) : set_bits m = bits_above m 0 := by
  simp [set_bits, bits_above, List.range_eq_range']

theorem bits_above_ge (m j : Nat) (h : 11 ≤ j) : bits_above m j = [] := by
  have : 11 - j = 0 := by omega
  simp [bits_above, this]

theorem bits_above_lt (m j : Nat) (h : j ≤ 10) :
    bits_above m j = if m.testBit j = true then j :: bits_above m (j + 1)
      else bits_above m (j + 1) := by
  have e : 11 - j = (11 - (j + 1)) + 1 := by omega
  unfold bits_above
  rw [e, List.range'_succ, List.filter_cons]

theorem bits_above_cons (m : Nat) :
    ∀ (d j b : Nat) (rest : List Nat), 11 - j = d → bits_above m j = b :: rest →
      rest = bits_above m (b + 1) ∧ j ≤ b ∧ b ≤ 10 ∧ m.testBit b = true := by
  intro d
  induction d with
  | zero =>
    intro j b rest hd h
    rw [bits_above_ge m j (by omega)] at h
    cases h
  | succ d ih =>
    intro j b rest hd h
    rw [bits_above_lt m j (by omega)] at h
    by_cases hb : m.testBit j = true
    · rw [if_pos hb] at h
      injection h with h1 h2
      subst h1
      exact ⟨h2.symm, le_refl _, by omega, hb⟩
    · rw [if_neg hb] at h
      obtain ⟨h1, h2, h3, h4⟩ := ih (j + 1) b rest (by omega) h
      exact ⟨h1, by omega, h3, h4⟩

theorem scan_key_eq (m : Nat) (k : Int) :
    ∀ (n j : Nat), 11 ≤ j + n →
      scan_key m k n (j : Int) = ((bits_above m j).head?.map (fun b => (b : Int))).getD k := by
  intro n
  induction n with
  | zero =>
    intro j h
    rw [bits_above_ge m j (by omega)]
    rfl
  | succ n ih =>
    intro j h
    unfold scan_key
    by_cases hj : j ≤ 10
    · have hj2 : (j : Int) ≤ 10 := by omega
      rw [if_pos hj2, bits_above_lt m j hj, Int.toNat_ofNat]
      by_cases hb : m.testBit j = true
      · rw [if_pos ((bit_test_eq m j).2 hb), if_pos hb]
        rfl
      · rw [if_neg (fun hc => hb ((bit_test_eq m j).1 hc)), if_neg hb]
        have := ih (j + 1) (by omega)
        rw [← this]
        rfl
    · have hj2 : ¬ (j : Int) ≤ 10 := by omega
      rw [if_neg hj2, bits_above_ge m j (by omega)]
      rfl

theorem map_channels_spec (cm : Nat) :
    ∀ (n i j : Nat) (k : Int) (m : snd_pcm_chmap_t), k + 1 = (j : Int) →
      (∀ x, x < i → (map_channels cm n i k m).pos x = m.pos x)
      ∧ (List.range' i n).map (map_channels cm n i k m).pos = layout_from (bits_above cm j) k n
      ∧ (map_channels cm n i k m).channels = m.channels
      ∧ (map_channels cm n i k m).slots = m.slots
      ∧ (map_channels cm n i k m).past_block
          = m.past_block ++ (List.range' i n).filter (fun x => decide (m.slots ≤ x)) := by
  intro n
  induction n with
  | zero =>
    intro i j k m _
    refine ⟨fun x _ => rfl, ?_, rfl, rfl, ?_⟩
    · cases bits_above cm j <;> rfl
    · simp [map_channels]
  | succ n ih =>
    intro i j k m hk
    have hscan : scan_key cm k 11 (k + 1)
        = ((bits_above cm j).head?.map (fun b => (b : Int))).getD k := by
      rw [hk]
      exact scan_key_eq cm k 11 j (by omega)
    have hpast : ∀ v, (m.store i v).past_block
          ++ (List.range' (i + 1) n).filter (fun x => decide (m.slots ≤ x))
        = m.past_block ++ (List.range' i (n + 1)).filter (fun x => decide (m.slots ≤ x)) := by
      intro v
      rw [List.range'_succ, List.filter_cons]
      by_cases hi : i < m.slots
      · have hd : decide (m.slots ≤ i) = false := by simp [hi]
        simp [snd_pcm_chmap_t.store, hi, hd]
      · have hd : decide (m.slots ≤ i) = true := by simp; omega
        simp [snd_pcm_chmap_t.store, hi, hd]
    cases hL : bits_above cm j with
    | nil =>
      rw [hL] at hscan
      have hk1 : scan_key cm k 11 (k + 1) = k := hscan
      have step : map_channels cm (n + 1) i k m
          = map_channels cm n (i + 1) k (m.store i (chmap_of_key k)) := by
        show map_channels cm n (i + 1) (scan_key cm k 11 (k + 1))
          (m.store i (chmap_of_key (scan_key cm k 11 (k + 1)))) = _
        rw [hk1]
      obtain ⟨ih1, ih2, ih3, ih4, ih5⟩ := ih (i + 1) j k (m.store i (chmap_of_key k)) hk
      rw [hL] at ih2
      rw [step]
      refine ⟨fun x hx => ?_, ?_, ih3, ih4, ?_⟩
      · rw [ih1 x (by omega)]
        exact Function.update_noteq (by omega) _ _
      · rw [List.range'_succ, List.map_cons, ih2, ih1 i (by omega)]
        show Function.update m.pos i (chmap_of_key k) i :: _ = _
        rw [Function.update_same]
        rfl
      · rw [ih5]
        exact hpast _
    | cons b rest =>
      rw [hL] at hscan
      have hk1 : scan_key cm k 11 (k + 1) = (b : Int) := hscan
      obtain ⟨hrest, _, _, _⟩ := bits_above_cons cm (11 - j) j b rest rfl hL
      have step : map_channels cm (n + 1) i k m
          = map_channels cm n (i + 1) (b : Int) (m.store i (chmap_of_key (b : Int))) := by
        show map_channels cm n (i + 1) (scan_key cm k 11 (k + 1))
          (m.store i (chmap_of_key (scan_key cm k 11 (k + 1)))) = _
        rw [hk1]
      obtain ⟨ih1, ih2, ih3, ih4, ih5⟩ := ih (i + 1) (b + 1) (b : Int)
        (m.store i (chmap_of_key (b : Int))) (by push_cast; rfl)
      rw [← hrest] at ih2
      rw [step]
      refine ⟨fun x hx => ?_, ?_, ih3, ih4, ?_⟩
      · rw [ih1 x (by omega)]
        exact Function.update_noteq (by omega) _ _
      · rw [List.range'_succ, List.map_cons, ih2, ih1 i (by omega)]
        show Function.update m.pos i (chmap_of_key (b : Int)) i :: _ = _
        rw [Function.update_same]
        rfl
      · rw [ih5]
        exact hpast _

theorem layout_from_take :
    ∀ (n : Nat) (L : List Nat) (k : Int), n ≤ L.length →
      layout_from L k n = (L.take n).map (fun (b : Nat) => chmap_of_key (b : Int)) := by
  intro n
  induction n with
  | zero =>
    intro L k _
    cases L <;> rfl
  | succ n ih =>
    intro L k h
    cases L with
    | nil => simp at h
    | cons b rest =>
      simp only [List.length_cons, Nat.add_le_add_iff_right] at h
      simp only [layout_from, List.take_succ_cons, List.map_cons, ih rest (b : Int) h]

theorem chmap_of_key_canonical (b : Nat) (hb : b ≤ 10) :
    chmap_of_key (b : Int) = canonical_role b := by
  interval_cases b <;> rfl

theorem layout_eq_layout_from (m : snd_pcm_chmap_t) (channels cm : Nat)
    (h1 : channels ≠ 1) :
    channel_layout m channels cm = layout_from (set_bits cm) (-1) channels := by
  unfold channel_layout update_channel_map snd_pcm_chmap_t.layout
  simp only [if_neg h1]
  obtain ⟨_, h2, h3, _, _⟩ := map_channels_spec cm channels 0 0 (-1)
    { m with channels := channels } (by norm_num)
  rw [h3, List.range_eq_range', set_bits_eq]
  exact h2

theorem set_bits_mem (m b : Nat) : b ∈ set_bits m ↔ b ≤ 10 ∧ m.testBit b = true := by
  simp only [set_bits, List.mem_filter, List.mem_range]
  constructor <;> rintro ⟨h1, h2⟩ <;> exact ⟨by omega, h2⟩

theorem set_bits_sorted (m : Nat) : (set_bits m).Pairwise (· < ·) :=
  List.Pairwise.filter _ (List.pairwise_lt_range 11)

theorem apply_format_layout (ao : alsa_output_data) (rf : receiver_format) :
    (apply_format ao rf).1.channel_map.layout
      = channel_layout ao.channel_map rf.channels rf.channel_map := by
  unfold apply_format channel_layout
  simp only [update_channel_map]
  split_ifs <;> rfl

theorem apply_format_past_block (ao : alsa_output_data) (rf : receiver_format) :
    (apply_format ao rf).1.channel_map.past_block
      = channel_past_block ao.channel_map rf.channels rf.channel_map := by
  unfold apply_format channel_past_block
  simp only [update_channel_map]
  split_ifs <;> rfl

theorem channel_layout_length (m : snd_pcm_chmap_t) (channels cm : Nat) :
    (channel_layout m channels cm).length = channels := by
  unfold channel_layout update_channel_map snd_pcm_chmap_t.layout
  simp only
  split_ifs with h
  · simp [snd_pcm_chmap_t.store]
  · obtain ⟨_, _, h3, _, _⟩ := map_channels_spec cm channels 0 0 (-1)
      { m with channels := channels } (by norm_num)
    rw [h3]
    simp

theorem channel_layout_mono (m : snd_pcm_chmap_t) (cm : Nat) :
    channel_layout m 1 cm = [SND_CHMAP_MONO] := by
  simp [channel_layout, update_channel_map, snd_pcm_chmap_t.layout, snd_pcm_chmap_t.store,
    List.range_succ]

/-- The stores past the block made by the channel mapping: none when the channel
count fits the block. -/
theorem channel_past_block_fits (m : snd_pcm_chmap_t) (channels cm : Nat)
    (h : channels ≤ m.slots) :
    channel_past_block m channels cm = m.past_block := by
  unfold channel_past_block update_channel_map
  simp only
  split_ifs with h1
  · have : 0 < m.slots := by omega
    simp [snd_pcm_chmap_t.store, this]
  · obtain ⟨_, _, _, _, h5⟩ := map_channels_spec cm channels 0 0 (-1)
      { m with channels := channels } (by norm_num)
    rw [h5]
    have : (List.range' 0 channels).filter (fun x => decide (m.slots ≤ x)) = [] := by
      rw [List.filter_eq_nil_iff]
      intro x hx
      have := (List.mem_range'_1.1 hx).2
      simp
      omega
    simp [this]

/-- The stores past the block made by the channel mapping when the channel count
exceeds the block: every index from `slots` to `channels - 1`. -/
theorem channel_past_block_exceeds (m : snd_pcm_chmap_t) (channels cm : Nat)
    (h1 : channels ≠ 1) (h : m.slots < channels) :
    m.slots ∈ channel_past_block m channels cm := by
  unfold channel_past_block update_channel_map
  simp only [if_neg h1]
  obtain ⟨_, _, _, _, h5⟩ := map_channels_spec cm channels 0 0 (-1)
    { m with channels := channels } (by norm_num)
  rw [h5]
  apply List.mem_append_right
  rw [List.mem_filter]
  exact ⟨List.mem_range'_1.2 ⟨by omega, by omega⟩, by simp⟩

theorem channel_layout_enough_bits (m0 : snd_pcm_chmap_t) (channels m : Nat)
    (h1 : channels ≠ 1) (hm : channels ≤ (set_bits m).length) :
    channel_layout m0 channels m = ((set_bits m).take channels).map canonical_role := by
  rw [layout_eq_layout_from m0 channels m h1, layout_from_take channels _ _ hm]
  apply List.map_congr_left
  intro b hb
  exact chmap_of_key_canonical b ((set_bits_mem m b).1 (List.mem_of_mem_take hb)).1

/-- The channel mapper inside the block. When the channel count fits the slots of
the allocated channel map, no store goes past the block and the layout has
`channels` entries; one channel gives `[Mono]` whatever the mask; otherwise, when
the mask has at least `channels` bits set among positions 0..10, channel `i` gets
the canonical role of the `(i+1)`-th lowest set bit, so that the bit positions
used are strictly increasing and no bit is used twice. -/
theorem channel_mapper_in_block (ao : alsa_output_data) (rf : receiver_format)
    (hfit : rf.channels ≤ ao.channel_map.slots) :
    (apply_format ao rf).1.channel_map.past_block = ao.channel_map.past_block
    ∧ ((apply_format ao rf).1.channel_map.layout).length = rf.channels
    ∧ (rf.channels = 1 → (apply_format ao rf).1.channel_map.layout = [SND_CHMAP_MONO])
    ∧ (rf.channels ≠ 1 → rf.channels ≤ (set_bits rf.channel_map).length →
        (apply_format ao rf).1.channel_map.layout
            = ((set_bits rf.channel_map).take rf.channels).map canonical_role
          ∧ ((set_bits rf.channel_map).take rf.channels).Pairwise (· < ·)
          ∧ ∀ i, i < rf.channels → ∃ b, (set_bits rf.channel_map)[i]? = some b
              ∧ ((apply_format ao rf).1.channel_map.layout)[i]? = some (canonical_role b)
              ∧ b ≤ 10 ∧ rf.channel_map.testBit b = true)
    ∧ (∀ b, b ∈ set_bits rf.channel_map ↔ b ≤ 10 ∧ rf.channel_map.testBit b = true)
    ∧ (set_bits rf.channel_map).Pairwise (· < ·)
    ∧ (rf.channels = 2 → rf.channel_map = 0b011 →
        (apply_format ao rf).1.channel_map.layout = [SND_CHMAP_FL, SND_CHMAP_FR]) := by
  rw [apply_format_layout, apply_format_past_block]
  refine ⟨channel_past_block_fits _ _ _ hfit, channel_layout_length _ _ _, ?_, ?_,
    set_bits_mem _, set_bits_sorted _, ?_⟩
  · intro h
    rw [h]
    exact channel_layout_mono _ _
  · intro h1 hm
    have hL := channel_layout_enough_bits ao.channel_map rf.channels rf.channel_map h1 hm
    refine ⟨hL, List.Pairwise.sublist (List.take_sublist _ _) (set_bits_sorted _), ?_⟩
    intro i hi
    have hi2 : i < (set_bits rf.channel_map).length := by omega
    refine ⟨(set_bits rf.channel_map)[i], List.getElem?_eq_getElem hi2, ?_, ?_⟩
    · rw [hL, List.getElem?_map, List.getElem?_take_of_lt hi, List.getElem?_eq_getElem hi2]
      rfl
    · exact (set_bits_mem _ _).1 (List.getElem_mem hi2)
  · intro h2 hm
    rw [h2, hm, layout_eq_layout_from _ _ _ (by decide)]
    decide

/-- The channel mapper past the block. When the channel count is not 1 and exceeds
the slots of the allocated channel map, the loop stores `pos[slots]`, which lies
past the block. -/
theorem channel_mapper_exceeds_block (ao : alsa_output_data) (rf : receiver_format)
    (h1 : rf.channels ≠ 1) (h : ao.channel_map.slots < rf.channels) :
    ao.channel_map.slots ∈ (apply_format ao rf).1.channel_map.past_block := by
  rw [apply_format_past_block]
  exact channel_past_block_exceeds _ _ _ h1 h

/-- C2 on the code. The channel map that `alsa_output_init` allocates for
`MAX_CHANNELS = 8` has 8 slots of `pos`. A format change to 9 channels with mask
`0x1ff` (nine bits set among positions 0..10) makes the mapping loop store
`pos[8]`, past the block: a layout of 9 entries does not fit the memory the
code owns. With 8 channels and mask `0xff` every store is
inside the block. -/
theorem channel_map_written_past_block :
    (alsa_output_init ao_data_static 8 50 "default").channel_map.slots = 8
    ∧ (alsa_output_init ao_data_static 8 50 "default").channel_map.past_block = []
    ∧ 9 ≤ (set_bits 0x1ff).length
    ∧ (apply_format (alsa_output_init ao_data_static 8 50 "default")
        (receiver_format.mk 0x90 16 9 0x1ff)).1.channel_map.past_block = [8]
    ∧ (next_state dev_ok 9 (init_state 8 50 "default")
        (packet 0x90 16 9 0x1ff 18)).ao_data.channel_map.past_block = [8]
    ∧ (apply_format (alsa_output_init ao_data_static 8 50 "default")
        (receiver_format.mk 0x90 16 8 0xff)).1.channel_map.past_block = [] := by
  refine ⟨by decide, by decide, by decide, by decide, by decide, by decide⟩

/-- C3 on the code. With mask `0b011` and three channels the third channel is not
given the Center fallback: the scan finds no further bit, `k` keeps the key of
the second channel and the third channel is Front-Right again. The fallback is
only taken when no bit at all is set among positions 0..10. -/
theorem channel_mapper_fallback_repeats_last_bit :
    (∀ (ao : alsa_output_data) (sample_rate sample_size : Nat),
      (apply_format ao (receiver_format.mk sample_rate sample_size 3 0b011)).1.channel_map.layout
        = [SND_CHMAP_FL, SND_CHMAP_FR, SND_CHMAP_FR])
    ∧ (∀ (ao : alsa_output_data) (sample_rate sample_size : Nat),
      (apply_format ao (receiver_format.mk sample_rate sample_size 3 0b011)).1.channel_map.layout
        ≠ [SND_CHMAP_FL, SND_CHMAP_FR, SND_CHMAP_FC])
    ∧ (∀ (ao : alsa_output_data) (sample_rate sample_size : Nat),
      (apply_format ao (receiver_format.mk sample_rate sample_size 3 0)).1.channel_map.layout
        = [SND_CHMAP_FC, SND_CHMAP_FC, SND_CHMAP_FC]) := by
  have h3 : ∀ pos0, channel_layout pos0 3 0b011 = [SND_CHMAP_FL, SND_CHMAP_FR, SND_CHMAP_FR] := by
    intro pos0
    rw [layout_eq_layout_from pos0 3 0b011 (by decide)]
    decide
  have h0 : ∀ pos0, channel_layout pos0 3 0 = [SND_CHMAP_FC, SND_CHMAP_FC, SND_CHMAP_FC] := by
    intro pos0
    rw [layout_eq_layout_from pos0 3 0 (by decide)]
    decide
  refine ⟨?_, ?_, ?_⟩
  · intro ao sr ss
    rw [apply_format_layout]
    exact h3 _
  · intro ao sr ss
    rw [apply_format_layout]
    have := h3 ao.channel_map
    intro hc
    rw [hc] at this
    exact absurd this (by decide)
  · intro ao sr ss
    rw [apply_format_layout]
    exact h0 _

/-! ## Rate derivation -/

/-- C8. On a format change with a supported sample size the derived rate is
`(44100 if c >= 128 else 48000) * (c mod 128)` for every rate code `c` of a byte;
the product fits a 32-bit `int`; the rate is 0 exactly when `c mod 128 = 0`, that
is for `c = 0` and `c = 128`; and the three values of the design document. -/
theorem derive_rate_spec (c : Nat) (hc : c < 256) :
    derive_rate c = (if c ≥ 128 then 44100 else 48000) * (c % 128)
    ∧ (if c ≥ 128 then 44100 else 48000) * (c % 128) < 2 ^ 31
    ∧ (derive_rate c = 0 ↔ c % 128 = 0)
    ∧ (c % 128 = 0 ↔ c = 0 ∨ c = 128)
    ∧ (∀ (ao : alsa_output_data) (rf : receiver_format), rf.sample_rate = c →
        rf.sample_size = 16 ∨ rf.sample_size = 24 ∨ rf.sample_size = 32 →
        (apply_format ao rf).1.rate = derive_rate c)
    ∧ derive_rate 0 = 0
    ∧ derive_rate 0x90 = 44100 * 16
    ∧ derive_rate 0x90 = 705600
    ∧ derive_rate 48 = 48000 * 48
    ∧ derive_rate 48 = 2304000 := by
  have hm : c % 128 < 128 := Nat.mod_lt _ (by norm_num)
  have happ : ∀ (ao : alsa_output_data) (rf : receiver_format), rf.sample_rate = c →
      rf.sample_size = 16 ∨ rf.sample_size = 24 ∨ rf.sample_size = 32 →
      (apply_format ao rf).1.rate = derive_rate c := by
    intro ao rf hr hs
    unfold apply_format
    rcases hs with h | h | h <;> simp [h, hr]
  refine ⟨?_, ?_, ?_, ?_, happ, by decide, by decide, by decide, by decide, by decide⟩
  · by_cases h : c ≥ 128
    · simp only [derive_rate, h, if_true]
      apply Nat.mod_eq_of_lt
      norm_num
      omega
    · simp only [derive_rate, h, if_false]
      apply Nat.mod_eq_of_lt
      norm_num
      omega
  · by_cases h : c ≥ 128
    · simp only [h, if_true]
      norm_num
      omega
    · simp only [h, if_false]
      norm_num
      omega
  · by_cases h : c ≥ 128
    · have e : derive_rate c = 44100 * (c % 128) := by
        simp only [derive_rate, h, if_true]
        apply Nat.mod_eq_of_lt
        norm_num
        omega
      rw [e]
      omega
    · have e : derive_rate c = 48000 * (c % 128) := by
        simp only [derive_rate, h, if_false]
        apply Nat.mod_eq_of_lt
        norm_num
        omega
      rw [e]
      omega
  · omega

/-- Witness of C8 at the rate code `0x90` of the end-to-end scenario. -/
theorem derive_rate_spec_witness :
    derive_rate 0x90 = (if 0x90 ≥ 128 then 44100 else 48000) * (0x90 % 128) :=
  (derive_rate_spec 0x90 (by decide)).1

/-! ## Packet decoder -/

theorem rcv_loop_short (max : Nat) (rest : List recvfrom_result) (n : Int) (buf : List Nat)
    (hn : n < 5) :
    rcv_loop max rest n buf = rcv_loop max rest 0 buf := by
  have hn2 : n < HEADER_SIZE := hn
  have h02 : (0 : Int) < HEADER_SIZE := by decide
  cases rest with
  | nil => simp only [rcv_loop, if_pos hn2, if_pos h02]
  | cons r rest => simp only [rcv_loop, if_pos hn2, if_pos h02]

theorem channel_map_bytes (b3 b4 : Nat) (h3 : b3 < 256) (h4 : b4 < 256) :
    ((b4 <<< 8) ||| b3) % 2 ^ 16 = b3 + 256 * b4 := by
  have e : (b4 <<< 8) ||| b3 = 2 ^ 8 * b4 + b3 := by
    rw [Nat.mul_add_lt_is_or (by norm_num; exact h3) b4, Nat.shiftLeft_eq, Nat.mul_comm]
  rw [e]
  norm_num
  omega

theorem decode_header_fields (buf : List Nat) (h3 : buf.getD 3 0 < 256)
    (h4 : buf.getD 4 0 < 256) :
    decode_header buf
      = { sample_rate := buf.getD 0 0, sample_size := buf.getD 1 0, channels := buf.getD 2 0,
          channel_map := buf.getD 3 0 + 256 * buf.getD 4 0 } := by
  unfold decode_header
  rw [channel_map_bytes _ _ h3 h4]

theorem getD_lt_of_forall (l : List Nat) (hb : ∀ b ∈ l, b < 256) (i : Nat) :
    l.getD i 0 < 256 := by
  by_cases hi : i < l.length
  · rw [List.getD_eq_getElem _ _ hi]
    exact hb _ (List.getElem_mem hi)
  · rw [List.getD_eq_default _ _ (by omega)]
    norm_num

theorem getD_append_left (l r : List Nat) (i : Nat) (hi : i < l.length) :
    (l ++ r).getD i 0 = l.getD i 0 := by
  rw [List.getD_eq_getElem _ _ hi, List.getD_eq_getElem _ _ (by rw [List.length_append]; omega),
    List.getElem_append_left hi]

theorem rcv_loop_done (max : Nat) (rest : List recvfrom_result) (n : Int) (buf : List Nat)
    (hn : 5 ≤ n) : rcv_loop max rest n buf = some (n, buf, 0, rest) := by
  have hn2 : ¬ n < HEADER_SIZE := by
    show ¬ n < 5
    omega
  cases rest with
  | nil => simp only [rcv_loop, if_neg hn2]
  | cons r rest => simp only [rcv_loop, if_neg hn2]

theorem rcv_loop_datagram (max : Nat) (bytes : List Nat) (rest : List recvfrom_result)
    (buf : List Nat) :
    rcv_loop max (recvfrom_result.datagram bytes :: rest) 0 buf
      = rcv_loop max rest ((bytes.take max).length : Int)
          (bytes.take max ++ buf.drop (bytes.take max).length) := by
  have h02 : (0 : Int) < HEADER_SIZE := by decide
  simp only [rcv_loop, if_pos h02, recvfrom]
  rw [if_neg (by simp)]

theorem header_roundtrip (b0 b1 b2 b3 b4 : Nat) (h3 : b3 < 256) (h4 : b4 < 256) :
    encode_header (decode_header [b0, b1, b2, b3, b4]) = [b0, b1, b2, b3, b4] := by
  rw [decode_header_fields [b0, b1, b2, b3, b4] h3 h4]
  simp only [encode_header, List.getD_cons_zero, List.getD_cons_succ]
  have e1 : (b3 + 256 * b4) % 256 = b3 := by omega
  have e2 : (b3 + 256 * b4) / 256 = b4 := by omega
  rw [e1, e2]

/-- C1. Packet decoder: a datagram shorter than the 5-byte header is discarded and
receiving goes on with the next `recvfrom`; a datagram of `n ≥ 5` bytes gives the
packet with `sample_rate = byte0`, `sample_size = byte1`, `channels = byte2`,
`channel_map = byte3 + 256*byte4`, `audio_size = n - 5` and `audio = bytes[5..n)`;
and encoding the decoded fields of a 5-byte header gives the header back. The
bytes received are the datagram cut to the size of the receive buffer. -/
theorem rcv_network_decodes (max : Nat) (hmax : max < 2 ^ 32) (buf : List Nat)
    (rd : receiver_data) (bytes : List Nat) (rest : List recvfrom_result)
    (hb : ∀ b ∈ bytes, b < 256) :
    ((bytes.take max).length < 5 →
      rcv_network max buf rd (recvfrom_result.datagram bytes :: rest)
        = rcv_network max (bytes.take max ++ buf.drop (bytes.take max).length) rd rest)
    ∧ (5 ≤ (bytes.take max).length →
      ∃ rd1 buf1, rcv_network max buf rd (recvfrom_result.datagram bytes :: rest)
          = some (rd1, buf1, rest)
        ∧ rd1.timed_out = 0
        ∧ rd1.prev_timed_out = rd.timed_out
        ∧ rd1.format.sample_rate = (bytes.take max).getD 0 0
        ∧ rd1.format.sample_size = (bytes.take max).getD 1 0
        ∧ rd1.format.channels = (bytes.take max).getD 2 0
        ∧ rd1.format.channel_map = (bytes.take max).getD 3 0 + 256 * (bytes.take max).getD 4 0
        ∧ rd1.audio_size = (bytes.take max).length - 5
        ∧ rd1.audio.take rd1.audio_size = (bytes.take max).drop 5)
    ∧ (bytes.length = 5 → encode_header (decode_header bytes) = bytes) := by
  have hrx : ∀ b ∈ bytes.take max, b < 256 := fun b h => hb b (List.mem_of_mem_take h)
  have hlen : (bytes.take max).length ≤ max := by
    rw [List.length_take]
    omega
  refine ⟨?_, ?_, ?_⟩
  · intro hshort
    unfold rcv_network
    rw [rcv_loop_datagram, rcv_loop_short _ _ _ _ (by omega)]
  · intro hlong
    unfold rcv_network
    rw [rcv_loop_datagram, rcv_loop_done _ _ _ _ (by omega)]
    have g : ∀ i, i < 5 →
        (bytes.take max ++ buf.drop (bytes.take max).length).getD i 0
          = (bytes.take max).getD i 0 :=
      fun i hi => getD_append_left _ _ i (by omega)
    have hsize : (((((bytes.take max).length : Int) - HEADER_SIZE) % 2 ^ 32).toNat)
        = (bytes.take max).length - 5 := by
      have h1 : (((bytes.take max).length : Int) - HEADER_SIZE)
          = (((bytes.take max).length - 5 : Nat) : Int) := by
        show ((bytes.take max).length : Int) - 5 = _
        omega
      have h32 : (2 : Nat) ^ 32 = 4294967296 := by norm_num
      have h2 : (bytes.take max).length - 5 < 4294967296 := by omega
      rw [h1]
      norm_num
      omega
    refine ⟨_, _, rfl, rfl, rfl, ?_, ?_, ?_, ?_, ?_, ?_⟩
    · simp only [decode_header]
      exact g 0 (by norm_num)
    · simp only [decode_header]
      exact g 1 (by norm_num)
    · simp only [decode_header]
      exact g 2 (by norm_num)
    · rw [decode_header_fields _ (by rw [g 3 (by norm_num)]; exact getD_lt_of_forall _ hrx 3)
        (by rw [g 4 (by norm_num)]; exact getD_lt_of_forall _ hrx 4)]
      simp only [g 3 (by norm_num), g 4 (by norm_num)]
    · exact hsize
    · simp only [hsize]
      rw [List.drop_append_of_le_length hlong, List.take_append_eq_append_take,
        List.length_drop, Nat.sub_self, List.take_zero, List.append_nil,
        List.take_of_length_le (by rw [List.length_drop])]
  · intro h5
    match bytes, h5, hb with
    | [b0, b1, b2, b3, b4], _, hb =>
      exact header_roundtrip b0 b1 b2 b3 b4 (hb b3 (by simp)) (hb b4 (by simp))

/-- Witness of C1: a 3-byte datagram is skipped and the 9-byte datagram after it
is the packet delivered. -/
theorem rcv_network_decodes_witness :
    rcv_network 1157 (List.replicate 1157 0)
        { format := { sample_rate := 0, sample_size := 0, channels := 0, channel_map := 0 },
          audio_size := 0, audio := [], timed_out := 1, prev_timed_out := 0 }
        [recvfrom_result.datagram [1, 2, 3],
         recvfrom_result.datagram [0x90, 16, 2, 3, 1, 10, 11, 12, 13]]
      = rcv_network 1157 ([1, 2, 3] ++ List.replicate 1154 0)
        { format := { sample_rate := 0, sample_size := 0, channels := 0, channel_map := 0 },
          audio_size := 0, audio := [], timed_out := 1, prev_timed_out := 0 }
        [recvfrom_result.datagram [0x90, 16, 2, 3, 1, 10, 11, 12, 13]] :=
  (rcv_network_decodes 1157 (by norm_num) (List.replicate 1157 0)
    { format := { sample_rate := 0, sample_size := 0, channels := 0, channel_map := 0 },
      audio_size := 0, audio := [], timed_out := 1, prev_timed_out := 0 }
    [1, 2, 3] [recvfrom_result.datagram [0x90, 16, 2, 3, 1, 10, 11, 12, 13]]
    (by decide)).1 (by decide)

/-! ## Device manager: one call of `alsa_output_send` -/

theorem setup_alsa_busy (dev : AlsaDevice) (open_pcms : List Nat) (psnd : Option Nat)
    (format : Option snd_pcm_format_t) (rate : Nat) (lat : Int) (name : String) (channels : Nat)
    (cm : snd_pcm_chmap_t)
    (h : dev.snd_pcm_open name = -EBUSY ∨ dev.snd_pcm_open name = -ENOENT) :
    setup_alsa dev open_pcms psnd format rate lat name channels cm = (-2, psnd, open_pcms) := by
  unfold setup_alsa
  simp only [if_pos h]

theorem setup_alsa_ret (dev : AlsaDevice) (open_pcms : List Nat) (psnd : Option Nat)
    (format : Option snd_pcm_format_t) (rate : Nat) (lat : Int) (name : String) (channels : Nat)
    (cm : snd_pcm_chmap_t) :
    (setup_alsa dev open_pcms psnd format rate lat name channels cm).1 = 0
    ∨ (setup_alsa dev open_pcms psnd format rate lat name channels cm).1 = -1
    ∨ (setup_alsa dev open_pcms psnd format rate lat name channels cm).1 = -2 := by
  unfold setup_alsa
  simp only
  split_ifs <;> simp

theorem reopen_rate_zero (dev : AlsaDevice) (open_pcms : List Nat) (ao : alsa_output_data)
    (format : Option snd_pcm_format_t) (rf : receiver_format) (h : ao.rate = 0) :
    reopen dev open_pcms ao format rf = ({ ao_data := ao, open_pcms := open_pcms }, []) := by
  unfold reopen
  simp [h]

theorem reopen_keeps (dev : AlsaDevice) (open_pcms : List Nat) (ao : alsa_output_data)
    (format : Option snd_pcm_format_t) (rf : receiver_format) :
    (reopen dev open_pcms ao format rf).1.ao_data.receiver_format = ao.receiver_format
    ∧ (reopen dev open_pcms ao format rf).1.ao_data.bytes_per_sample = ao.bytes_per_sample
    ∧ (reopen dev open_pcms ao format rf).1.ao_data.channel_map = ao.channel_map
    ∧ (reopen dev open_pcms ao format rf).1.ao_data.latency = ao.latency
    ∧ (reopen dev open_pcms ao format rf).1.ao_data.alsa_device = ao.alsa_device
    ∧ ((reopen dev open_pcms ao format rf).1.ao_data.rate ≠ 0 →
        (reopen dev open_pcms ao format rf).1.ao_data.rate = ao.rate) := by
  unfold reopen
  simp only
  split_ifs <;> simp

/-- The calls of `reopen`: at most one `close` and then, when the rate is not 0,
one `setup` whose return value decides the handle and the rate kept. -/
theorem reopen_calls (dev : AlsaDevice) (open_pcms : List Nat) (ao : alsa_output_data)
    (format : Option snd_pcm_format_t) (rf : receiver_format) (c : AlsaCall)
    (hc : c ∈ (reopen dev open_pcms ao format rf).2) :
    (∃ h, c = AlsaCall.close h)
    ∨ ∃ ret, c = AlsaCall.setup format ao.rate ao.latency ao.alsa_device rf.channels
          ao.channel_map.layout ret
        ∧ ao.rate ≠ 0
        ∧ (ret = 0 ∨ ret = -1 ∨ ret = -2)
        ∧ (ret = -2 → (reopen dev open_pcms ao format rf).1.ao_data.snd = none
            ∧ (reopen dev open_pcms ao format rf).1.ao_data.rate = ao.rate)
        ∧ (ret = -1 → (reopen dev open_pcms ao format rf).1.ao_data.snd = none
            ∧ (reopen dev open_pcms ao format rf).1.ao_data.rate = 0) := by
  unfold reopen at hc ⊢
  by_cases hr : ao.rate ≠ 0
  · simp only [if_pos hr] at hc ⊢
    have hret := setup_alsa_ret dev (close_alsa dev open_pcms ao.snd).2 ao.snd format ao.rate
      ao.latency ao.alsa_device rf.channels ao.channel_map
    generalize setup_alsa dev (close_alsa dev open_pcms ao.snd).2 ao.snd format ao.rate
      ao.latency ao.alsa_device rf.channels ao.channel_map = s at hc hret ⊢
    have hmem : c ∈ (match ao.snd with
        | some h => [AlsaCall.close h]
        | none => []) ++ [AlsaCall.setup format ao.rate ao.latency ao.alsa_device rf.channels
          ao.channel_map.layout s.1] := by
      split_ifs at hc <;> exact hc
    rcases List.mem_append.1 hmem with h1 | h1
    · left
      cases hs : ao.snd with
      | none => rw [hs] at h1; cases h1
      | some h =>
        rw [hs] at h1
        exact ⟨h, List.mem_singleton.1 h1⟩
    · right
      refine ⟨s.1, List.mem_singleton.1 h1, hr, hret, ?_, ?_⟩
      · intro h2
        have n1 : ¬ s.1 = -1 := by rw [h2]; decide
        simp [n1, h2]
      · intro h2
        simp [h2]
  · simp only [if_neg hr] at hc
    cases hc

theorem reconfigure_changed (dev : AlsaDevice) (st : AlsaState) (rf : receiver_format)
    (h : st.ao_data.receiver_format ≠ rf) :
    reconfigure dev st rf
      = reopen dev st.open_pcms (apply_format st.ao_data rf).1 (apply_format st.ao_data rf).2 rf := by
  unfold reconfigure
  simp [h]

theorem reconfigure_same_closed (dev : AlsaDevice) (st : AlsaState) (rf : receiver_format)
    (h : st.ao_data.receiver_format = rf) (hs : st.ao_data.snd = none) :
    reconfigure dev st rf = reopen dev st.open_pcms st.ao_data none rf := by
  unfold reconfigure
  simp [h, hs]

theorem reconfigure_same_open (dev : AlsaDevice) (st : AlsaState) (rf : receiver_format)
    (h : st.ao_data.receiver_format = rf) (hs : st.ao_data.snd ≠ none) :
    reconfigure dev st rf = (st, []) := by
  unfold reconfigure
  simp [h, hs]

theorem apply_format_format (ao : alsa_output_data) (rf : receiver_format) :
    (apply_format ao rf).1.receiver_format = rf := by
  unfold apply_format
  simp only
  split_ifs <;> rfl

theorem reconfigure_format (dev : AlsaDevice) (st : AlsaState) (rf : receiver_format) :
    (reconfigure dev st rf).1.ao_data.receiver_format = rf := by
  by_cases hf : st.ao_data.receiver_format = rf
  · by_cases hs : st.ao_data.snd = none
    · rw [reconfigure_same_closed dev st rf hf hs, (reopen_keeps _ _ _ _ _).1, hf]
    · rw [reconfigure_same_open dev st rf hf hs]
      exact hf
  · rw [reconfigure_changed dev st rf hf, (reopen_keeps _ _ _ _ _).1, apply_format_format]

theorem write_frames_calls (dev : AlsaDevice) (snd bps ch : Nat) (samples : Int) :
    ∀ (fuel n : Nat) (i : Int) (calls : List AlsaCall) (ret : Int),
      write_frames dev snd bps ch samples fuel n i = some (calls, ret) →
      ∀ c ∈ calls, c.is_setup = false ∧ ∀ h, c ≠ AlsaCall.close h := by
  intro fuel
  induction fuel with
  | zero =>
    intro n i calls ret h c hc
    unfold write_frames at h
    split_ifs at h
    simp only [Option.some.injEq, Prod.mk.injEq] at h
    rw [← h.1] at hc
    cases hc
  | succ fuel ih =>
    intro n i calls ret h c hc
    unfold write_frames at h
    simp only at h
    split_ifs at h with h1 h2 h3
    · simp only [Option.some.injEq, Prod.mk.injEq] at h
      rw [← h.1] at hc
      simp only [List.mem_cons, List.mem_singleton, List.not_mem_nil, or_false] at hc
      rcases hc with rfl | rfl <;> exact ⟨rfl, fun _ hh => by cases hh⟩
    · simp only [Option.some.injEq, Prod.mk.injEq] at h
      rw [← h.1] at hc
      simp only [List.mem_cons, List.mem_singleton, List.not_mem_nil, or_false] at hc
      rcases hc with rfl | rfl <;> exact ⟨rfl, fun _ hh => by cases hh⟩
    · cases hw : write_frames dev snd bps ch samples fuel (n + 1)
          (i + dev.snd_pcm_writei snd n (i * bps * ch) (samples - i)) with
      | none => rw [hw] at h; cases h
      | some p =>
        obtain ⟨calls1, ret1⟩ := p
        rw [hw] at h
        simp only [Option.some.injEq, Prod.mk.injEq] at h
        rw [← h.1] at hc
        rcases List.mem_cons.1 hc with rfl | hc1
        · exact ⟨rfl, fun _ hh => by cases hh⟩
        · exact ih _ _ _ _ hw c hc1
    · simp only [Option.some.injEq, Prod.mk.injEq] at h
      rw [← h.1] at hc
      cases hc

/-- A receive timeout: the handle held is closed, nothing else changes. -/
theorem send_timeout (dev : AlsaDevice) (fuel : Nat) (st : AlsaState) (data : receiver_data)
    (ht : data.timed_out ≠ 0) :
    ∃ r, alsa_output_send dev fuel st data = Outcome.done r
      ∧ r.ret = 0
      ∧ r.state.ao_data.snd = none
      ∧ r.state.ao_data.rate = st.ao_data.rate
      ∧ r.state.ao_data.receiver_format = st.ao_data.receiver_format
      ∧ r.state.ao_data.bytes_per_sample = st.ao_data.bytes_per_sample
      ∧ r.state.ao_data.channel_map = st.ao_data.channel_map
      ∧ r.state.ao_data.latency = st.ao_data.latency
      ∧ r.state.ao_data.alsa_device = st.ao_data.alsa_device
      ∧ (∀ c ∈ r.calls, ∃ h, c = AlsaCall.close h)
      ∧ (st.ao_data.snd = none → r.calls = [] ∧ r.state.open_pcms = st.open_pcms) := by
  unfold alsa_output_send
  simp only [if_pos ht]
  cases hs : st.ao_data.snd with
  | none =>
    refine ⟨_, rfl, rfl, hs, rfl, rfl, rfl, rfl, rfl, rfl, ?_, fun _ => ⟨rfl, rfl⟩⟩
    intro c hc
    cases hc
  | some h =>
    refine ⟨_, rfl, rfl, rfl, rfl, rfl, rfl, rfl, rfl, rfl, ?_, fun hn => by cases hn⟩
    intro c hc
    exact ⟨h, List.mem_singleton.1 hc⟩

/-- A packet cycle in which the write phase is not reached. -/
theorem send_no_write (dev : AlsaDevice) (fuel : Nat) (st : AlsaState) (data : receiver_data)
    (ht : data.timed_out = 0)
    (h : (reconfigure dev st data.format).1.ao_data.snd = none
      ∨ (reconfigure dev st data.format).1.ao_data.rate = 0) :
    alsa_output_send dev fuel st data
      = Outcome.done { state := (reconfigure dev st data.format).1,
                       calls := (reconfigure dev st data.format).2, ret := 0 } := by
  unfold alsa_output_send
  have ht2 : ¬ data.timed_out ≠ 0 := by simp [ht]
  simp only [if_neg ht2]
  cases hs : (reconfigure dev st data.format).1.ao_data.snd with
  | none => rfl
  | some pcm =>
    rcases h with h | h
    · rw [hs] at h
      cases h
    · simp only [if_pos h]

/-- A packet cycle that returns: the state is the one left by the reconfiguration
and the calls are those of the reconfiguration followed by write calls. -/
theorem send_packet_done (dev : AlsaDevice) (fuel : Nat) (st : AlsaState) (data : receiver_data)
    (r : SendResult) (ht : data.timed_out = 0)
    (hsend : alsa_output_send dev fuel st data = Outcome.done r) :
    r.state = (reconfigure dev st data.format).1
    ∧ ∃ w, r.calls = (reconfigure dev st data.format).2 ++ w
        ∧ (∀ c ∈ w, c.is_setup = false ∧ ∀ h, c ≠ AlsaCall.close h)
        ∧ (((reconfigure dev st data.format).1.ao_data.snd = none
            ∨ (reconfigure dev st data.format).1.ao_data.rate = 0) → w = []) := by
  by_cases h : (reconfigure dev st data.format).1.ao_data.snd = none
      ∨ (reconfigure dev st data.format).1.ao_data.rate = 0
  · rw [send_no_write dev fuel st data ht h] at hsend
    injection hsend with hsend
    subst hsend
    exact ⟨rfl, [], by simp, by simp, fun _ => rfl⟩
  · unfold alsa_output_send at hsend
    have ht2 : ¬ data.timed_out ≠ 0 := by simp [ht]
    simp only [if_neg ht2] at hsend
    push_neg at h
    obtain ⟨h1, h2⟩ := h
    cases hs : (reconfigure dev st data.format).1.ao_data.snd with
    | none => exact absurd hs h1
    | some pcm =>
      simp only [hs, if_neg h2] at hsend
      split_ifs at hsend with h3
      cases hw : write_frames dev pcm (reconfigure dev st data.format).1.ao_data.bytes_per_sample
          data.format.channels
          (((data.audio_size / ((reconfigure dev st data.format).1.ao_data.bytes_per_sample
            * data.format.channels) : Nat) : Int)) fuel 0 0 with
      | none => simp only [hw] at hsend; cases hsend
      | some p =>
        obtain ⟨calls, ret⟩ := p
        simp only [hw] at hsend
        injection hsend with hsend
        subst hsend
        refine ⟨rfl, calls, rfl, write_frames_calls _ _ _ _ _ _ _ _ _ _ hw, ?_⟩
        intro hc
        rcases hc with hc | hc
        · cases hc
        · exact absurd hc h2

/-- The calls of the reconfiguration: `close` calls and at most one `setup`, whose
arguments are the configuration kept in the state and whose return value
decides the handle and the rate. -/
theorem reconfigure_calls (dev : AlsaDevice) (st : AlsaState) (rf : receiver_format)
    (c : AlsaCall) (hc : c ∈ (reconfigure dev st rf).2) :
    (∃ h, c = AlsaCall.close h)
    ∨ ∃ fmt rate ret, c = AlsaCall.setup fmt rate
          (reconfigure dev st rf).1.ao_data.latency
          (reconfigure dev st rf).1.ao_data.alsa_device rf.channels
          (reconfigure dev st rf).1.ao_data.channel_map.layout ret
        ∧ rate ≠ 0
        ∧ (ret = 0 ∨ ret = -1 ∨ ret = -2)
        ∧ (ret = -2 → (reconfigure dev st rf).1.ao_data.snd = none
            ∧ (reconfigure dev st rf).1.ao_data.rate = rate)
        ∧ (ret = -1 → (reconfigure dev st rf).1.ao_data.snd = none
            ∧ (reconfigure dev st rf).1.ao_data.rate = 0) := by
  have key : ∀ (ao : alsa_output_data) (format : Option snd_pcm_format_t),
      c ∈ (reopen dev st.open_pcms ao format rf).2 →
      (∃ h, c = AlsaCall.close h)
      ∨ ∃ fmt rate ret, c = AlsaCall.setup fmt rate
            (reopen dev st.open_pcms ao format rf).1.ao_data.latency
            (reopen dev st.open_pcms ao format rf).1.ao_data.alsa_device rf.channels
            (reopen dev st.open_pcms ao format rf).1.ao_data.channel_map.layout ret
          ∧ rate ≠ 0
          ∧ (ret = 0 ∨ ret = -1 ∨ ret = -2)
          ∧ (ret = -2 → (reopen dev st.open_pcms ao format rf).1.ao_data.snd = none
              ∧ (reopen dev st.open_pcms ao format rf).1.ao_data.rate = rate)
          ∧ (ret = -1 → (reopen dev st.open_pcms ao format rf).1.ao_data.snd = none
              ∧ (reopen dev st.open_pcms ao format rf).1.ao_data.rate = 0) := by
    intro ao format hmem
    obtain ⟨_, _, k3, k4, k5, _⟩ := reopen_keeps dev st.open_pcms ao format rf
    rcases reopen_calls dev st.open_pcms ao format rf c hmem with h | ⟨ret, h1, h2, h3, h4, h5⟩
    · exact Or.inl h
    · right
      refine ⟨format, ao.rate, ret, ?_, h2, h3, h4, h5⟩
      rw [k3, k4, k5]
      exact h1
  by_cases hf : st.ao_data.receiver_format = rf
  · by_cases hs : st.ao_data.snd = none
    · rw [reconfigure_same_closed dev st rf hf hs] at hc ⊢
      exact key _ _ hc
    · rw [reconfigure_same_open dev st rf hf hs] at hc
      cases hc
  · rw [reconfigure_changed dev st rf hf] at hc ⊢
    exact key _ _ hc

/-- An open attempt seen in the calls of a cycle: the cycle was not a timeout, the
format of the packet is the one remembered, and the return value of `setup_alsa`
decides what is kept. -/
theorem send_setup_ret (dev : AlsaDevice) (fuel : Nat) (st : AlsaState) (data : receiver_data)
    (r : SendResult) (hsend : alsa_output_send dev fuel st data = Outcome.done r)
    (fmt : Option snd_pcm_format_t) (rate : Nat) (lat : Int) (name : String) (ch : Nat)
    (layout : List snd_pcm_chmap_position) (ret : Int)
    (hcall : AlsaCall.setup fmt rate lat name ch layout ret ∈ r.calls) :
    data.timed_out = 0
    ∧ r.state.ao_data.receiver_format = data.format
    ∧ lat = r.state.ao_data.latency
    ∧ name = r.state.ao_data.alsa_device
    ∧ ch = data.format.channels
    ∧ layout = r.state.ao_data.channel_map.layout
    ∧ rate ≠ 0
    ∧ (ret = -2 → r.state.ao_data.snd = none ∧ r.state.ao_data.rate = rate)
    ∧ (ret = -1 → r.state.ao_data.snd = none ∧ r.state.ao_data.rate = 0) := by
  by_cases ht : data.timed_out = 0
  · obtain ⟨hstate, w, hcalls, hw, _⟩ := send_packet_done dev fuel st data r ht hsend
    rw [hcalls] at hcall
    rcases List.mem_append.1 hcall with h | h
    · rcases reconfigure_calls dev st data.format _ h with ⟨pcm, h1⟩ | ⟨f, rt, rv, h1, h2, _, h4, h5⟩
      · cases h1
      · injection h1 with e1 e2 e3 e4 e5 e6 e7
        subst e1 e2 e7
        rw [hstate]
        exact ⟨ht, reconfigure_format dev st data.format, e3, e4, e5, e6, h2, h4, h5⟩
    · have := (hw _ h).1
      cases this
  · obtain ⟨r1, h1, _, _, _, _, _, _, _, _, hc, _⟩ := send_timeout dev fuel st data ht
    rw [hsend] at h1
    injection h1 with h1
    subst h1
    obtain ⟨pcm, hp⟩ := hc _ hcall
    cases hp

theorem reconfigure_rate_zero_same (dev : AlsaDevice) (st : AlsaState) (rf : receiver_format)
    (hr : st.ao_data.rate = 0) (hf : st.ao_data.receiver_format = rf) :
    reconfigure dev st rf = (st, []) := by
  by_cases hs : st.ao_data.snd = none
  · rw [reconfigure_same_closed dev st rf hf hs, reopen_rate_zero _ _ _ _ _ hr]
  · exact reconfigure_same_open dev st rf hf hs

theorem reopen_busy (dev : AlsaDevice) (open_pcms : List Nat) (ao : alsa_output_data)
    (format : Option snd_pcm_format_t) (rf : receiver_format) (hr : ao.rate ≠ 0)
    (hs : ao.snd = none)
    (hb : dev.snd_pcm_open ao.alsa_device = -EBUSY ∨ dev.snd_pcm_open ao.alsa_device = -ENOENT) :
    reopen dev open_pcms ao format rf
      = ({ ao_data := { ao with snd := none }, open_pcms := open_pcms },
         [AlsaCall.setup format ao.rate ao.latency ao.alsa_device rf.channels
            ao.channel_map.layout (-2)]) := by
  unfold reopen
  simp only [if_pos hr, hs, close_alsa]
  rw [setup_alsa_busy dev open_pcms none format ao.rate ao.latency ao.alsa_device rf.channels
    ao.channel_map hb]
  simp

/-- While the state holds no handle and a rate that is not 0, every packet cycle
with the remembered format and a busy device makes one open attempt, with the
configuration kept in the state, and leaves the state as it was. -/
theorem run_cycles_busy (fuel : Nat) (A : receiver_format) (rate : Nat) (lat : Int)
    (name : String) (layout : List snd_pcm_chmap_position) :
    ∀ (cycles : List (AlsaDevice × receiver_data)) (st : AlsaState),
      st.ao_data.snd = none → st.ao_data.rate = rate → rate ≠ 0 →
      st.ao_data.receiver_format = A → st.ao_data.latency = lat →
      st.ao_data.alsa_device = name → st.ao_data.channel_map.layout = layout →
      (∀ c ∈ cycles, c.2.timed_out ≠ 0 ∨ c.2.format = A) →
      (∀ c ∈ cycles, ∀ nm, c.1.snd_pcm_open nm = -EBUSY ∨ c.1.snd_pcm_open nm = -ENOENT) →
      ∃ st1 traces, run_cycles fuel st cycles = Outcome.done (st1, traces)
        ∧ List.Forall₂ (fun c tr => (c.2.timed_out ≠ 0 → tr = [])
            ∧ (c.2.timed_out = 0 →
                tr = [AlsaCall.setup none rate lat name A.channels layout (-2)]))
          cycles traces := by
  intro cycles
  induction cycles with
  | nil =>
    intro st _ _ _ _ _ _ _ _ _
    exact ⟨st, [], rfl, List.Forall₂.nil⟩
  | cons c rest ih =>
    intro st hs hr hr0 hf hl hn hlay hcyc hbusy
    have hrest := fun x hx => hcyc x (List.mem_cons_of_mem _ hx)
    have hbrest := fun x hx => hbusy x (List.mem_cons_of_mem _ hx)
    by_cases ht : c.2.timed_out = 0
    · have hfmt : c.2.format = A := by
        rcases hcyc c (List.mem_cons_self _ _) with h | h
        · exact absurd ht h
        · exact h
      have hrec : reconfigure c.1 st c.2.format
          = ({ ao_data := { st.ao_data with snd := none }, open_pcms := st.open_pcms },
             [AlsaCall.setup none rate lat name A.channels layout (-2)]) := by
        rw [reconfigure_same_closed c.1 st c.2.format (by rw [hf, hfmt]) hs,
          reopen_busy c.1 st.open_pcms st.ao_data none c.2.format (by rw [hr]; exact hr0) hs
            (hbusy c (List.mem_cons_self _ _) _)]
        simp only [hr, hl, hn, hlay, hfmt]
      have hsend := send_no_write c.1 fuel st c.2 ht (Or.inl (by rw [hrec]))
      rw [hrec] at hsend
      obtain ⟨st1, traces, hrun, hall⟩ := ih
        { ao_data := { st.ao_data with snd := none }, open_pcms := st.open_pcms }
        rfl hr hr0 hf hl hn hlay hrest hbrest
      refine ⟨st1, _ :: traces, ?_, List.Forall₂.cons ⟨fun h => absurd ht h, fun _ => rfl⟩ hall⟩
      simp only [run_cycles, hsend, hrun]
    · obtain ⟨r, hsend, _, k1, k2, k3, _, k5, k6, k7, _, k9⟩ := send_timeout c.1 fuel st c.2 ht
      obtain ⟨kc, _⟩ := k9 hs
      obtain ⟨st1, traces, hrun, hall⟩ := ih r.state k1 (by rw [k2, hr]) hr0 (by rw [k3, hf])
        (by rw [k6, hl]) (by rw [k7, hn]) (by rw [k5, hlay]) hrest hbrest
      refine ⟨st1, r.calls :: traces, ?_,
        List.Forall₂.cons ⟨fun _ => kc, fun h => absurd h ht⟩ hall⟩
      simp only [run_cycles, hsend, hrun]

/-- While the derived rate is 0, cycles that are timeouts or carry the remembered
format make no open attempt and no write: the only call possible is the `close`
of a handle still held, on a timeout. -/
theorem run_cycles_rate_zero (fuel : Nat) (A : receiver_format) :
    ∀ (cycles : List (AlsaDevice × receiver_data)) (st : AlsaState),
      st.ao_data.rate = 0 → st.ao_data.receiver_format = A →
      (∀ c ∈ cycles, c.2.timed_out ≠ 0 ∨ c.2.format = A) →
      ∃ st1 traces, run_cycles fuel st cycles = Outcome.done (st1, traces)
        ∧ traces.length = cycles.length
        ∧ (∀ tr ∈ traces, ∀ c ∈ tr, ∃ h, c = AlsaCall.close h)
        ∧ (st.ao_data.snd = none → ∀ tr ∈ traces, tr = []) := by
  intro cycles
  induction cycles with
  | nil =>
    intro st _ _ _
    refine ⟨st, [], rfl, rfl, ?_, ?_⟩
    · intro tr h
      cases h
    · intro _ tr h
      cases h
  | cons c rest ih =>
    intro st hr hf hcyc
    have hrest := fun x hx => hcyc x (List.mem_cons_of_mem _ hx)
    by_cases ht : c.2.timed_out = 0
    · have hfmt : c.2.format = A := by
        rcases hcyc c (List.mem_cons_self _ _) with h | h
        · exact absurd ht h
        · exact h
      have hrec := reconfigure_rate_zero_same c.1 st c.2.format hr (by rw [hf, hfmt])
      have hsend := send_no_write c.1 fuel st c.2 ht (Or.inr (by rw [hrec]; exact hr))
      rw [hrec] at hsend
      obtain ⟨st1, traces, hrun, hlen, hall, hnone⟩ := ih st hr hf hrest
      refine ⟨st1, [] :: traces, ?_, by simp [hlen], ?_, ?_⟩
      · simp only [run_cycles, hsend, hrun]
      · intro tr htr
        rcases List.mem_cons.1 htr with rfl | h
        · intro c hc
          cases hc
        · exact hall tr h
      · intro hs tr htr
        rcases List.mem_cons.1 htr with rfl | h
        · rfl
        · exact hnone hs tr h
    · obtain ⟨r, hsend, _, k1, k2, k3, _, _, _, _, k8, k9⟩ := send_timeout c.1 fuel st c.2 ht
      obtain ⟨st1, traces, hrun, hlen, hall, hnone⟩ := ih r.state (by rw [k2, hr])
        (by rw [k3, hf]) hrest
      refine ⟨st1, r.calls :: traces, ?_, by simp [hlen], ?_, ?_⟩
      · simp only [run_cycles, hsend, hrun]
      · intro tr htr
        rcases List.mem_cons.1 htr with rfl | h
        · exact k8
        · exact hall tr h
      · intro hs tr htr
        rcases List.mem_cons.1 htr with rfl | h
        · exact (k9 hs).1
        · exact hnone k1 tr h

/-! ## Device manager: retry policy -/

/-- C4. Retry asymmetry of the device manager. Take a cycle of `alsa_output_send`
that made an open attempt (a call of `setup_alsa`), and any later cycles that are
receive timeouts or carry the same format. (a) If the attempt returned -2 (device
busy or absent) and the device stays busy, every later packet cycle makes exactly
one open attempt again, with the same rate, latency, device, channel count and
layout, and a timeout cycle makes no call. (b) If the attempt returned -1, no
later cycle makes any call at all, whatever the device would answer. -/
theorem retry_asymmetry (fuel : Nat) (dev : AlsaDevice) (st : AlsaState) (data : receiver_data)
    (r : SendResult) (fmt : Option snd_pcm_format_t) (rate : Nat) (lat : Int) (name : String)
    (ch : Nat) (layout : List snd_pcm_chmap_position) (ret : Int)
    (cycles : List (AlsaDevice × receiver_data))
    (hsend : alsa_output_send dev fuel st data = Outcome.done r)
    (hcall : AlsaCall.setup fmt rate lat name ch layout ret ∈ r.calls)
    (hcycles : ∀ c ∈ cycles, c.2.timed_out ≠ 0 ∨ c.2.format = data.format) :
    (ret = -2 →
      (∀ c ∈ cycles, ∀ nm, c.1.snd_pcm_open nm = -EBUSY ∨ c.1.snd_pcm_open nm = -ENOENT) →
      ∃ st1 traces, run_cycles fuel r.state cycles = Outcome.done (st1, traces)
        ∧ List.Forall₂ (fun c tr => (c.2.timed_out ≠ 0 → tr = [])
            ∧ (c.2.timed_out = 0 →
                ∃ f, tr = [AlsaCall.setup f rate lat name ch layout (-2)]))
          cycles traces)
    ∧ (ret = -1 →
      ∃ st1 traces, run_cycles fuel r.state cycles = Outcome.done (st1, traces)
        ∧ traces.length = cycles.length
        ∧ ∀ tr ∈ traces, tr = []) := by
  obtain ⟨_, hf, hl, hn, hc, hlay, hr0, h2, h1⟩ :=
    send_setup_ret dev fuel st data r hsend fmt rate lat name ch layout ret hcall
  constructor
  · intro hret hbusy
    obtain ⟨hs, hr⟩ := h2 hret
    obtain ⟨st1, traces, hrun, hall⟩ := run_cycles_busy fuel data.format rate lat name layout
      cycles r.state hs hr hr0 hf hl.symm hn.symm hlay.symm hcycles hbusy
    refine ⟨st1, traces, hrun, ?_⟩
    rw [hc]
    exact List.Forall₂.imp (fun {c tr} h => ⟨h.1, fun ht => ⟨none, h.2 ht⟩⟩) hall
  · intro hret
    obtain ⟨hs, hr⟩ := h1 hret
    obtain ⟨st1, traces, hrun, hlen, _, hnone⟩ :=
      run_cycles_rate_zero fuel data.format cycles r.state hr hf hcycles
    exact ⟨st1, traces, hrun, hlen, hnone hs⟩

/-- Witness of C4: the first packet meets a busy device; the next packet, a
timeout and one more packet follow while the device stays busy. -/
theorem retry_asymmetry_witness :
    ∃ st1 traces,
      run_cycles 4 (next_state dev_busy 4 (init_state 8 50 "default") (packet 0x90 16 2 3 16))
          [(dev_busy, packet 0x90 16 2 3 16), (dev_busy, timeout_after (packet 0x90 16 2 3 16)),
           (dev_busy, packet 0x90 16 2 3 16)]
        = Outcome.done (st1, traces)
      ∧ List.Forall₂ (fun c tr => (c.2.timed_out ≠ 0 → tr = [])
          ∧ (c.2.timed_out = 0 → ∃ f, tr = [AlsaCall.setup f 705600 50 "default" 2
                [SND_CHMAP_FL, SND_CHMAP_FR] (-2)]))
        [(dev_busy, packet 0x90 16 2 3 16), (dev_busy, timeout_after (packet 0x90 16 2 3 16)),
         (dev_busy, packet 0x90 16 2 3 16)] traces :=
  (retry_asymmetry 4 dev_busy (init_state 8 50 "default") (packet 0x90 16 2 3 16)
    { state := next_state dev_busy 4 (init_state 8 50 "default") (packet 0x90 16 2 3 16),
      calls := [AlsaCall.setup (some SND_PCM_FORMAT_S16_LE) 705600 50 "default" 2
        [SND_CHMAP_FL, SND_CHMAP_FR] (-2)],
      ret := 0 }
    (some SND_PCM_FORMAT_S16_LE) 705600 50 "default" 2 [SND_CHMAP_FL, SND_CHMAP_FR] (-2)
    [(dev_busy, packet 0x90 16 2 3 16), (dev_busy, timeout_after (packet 0x90 16 2 3 16)),
     (dev_busy, packet 0x90 16 2 3 16)]
    rfl (List.mem_singleton.2 rfl)
    (by
      intro c hc
      simp only [List.mem_cons, List.mem_singleton, List.not_mem_nil, or_false] at hc
      rcases hc with rfl | rfl | rfl
      · exact Or.inr rfl
      · exact Or.inl (by decide)
      · exact Or.inr rfl)).1 rfl
    (by
      intro c hc nm
      simp only [List.mem_cons, List.mem_singleton, List.not_mem_nil, or_false] at hc
      rcases hc with rfl | rfl | rfl <;> exact Or.inl rfl)

/-! ## Unsupported sample size -/

theorem apply_format_unsupported (ao : alsa_output_data) (rf : receiver_format)
    (h : ¬ supported_sample_size rf.sample_size) :
    (apply_format ao rf).1.rate = 0 ∧ (apply_format ao rf).1.snd = ao.snd
      ∧ (apply_format ao rf).2 = none := by
  unfold supported_sample_size at h
  push_neg at h
  obtain ⟨h1, h2, h3⟩ := h
  unfold apply_format
  simp [h1, h2, h3]

/-- C6 as the code has it. A packet whose format differs from the remembered one
and whose sample size is not 16, 24 or 32 makes no library call: the derived rate
becomes 0, no frame is written, and a handle that was held is still held and still
open (it is not closed). In the later cycles that are timeouts or carry the same
format there is no open attempt and no write; the only call is the `close` of the
handle, on a timeout. -/
theorem unsupported_sample_size_suppresses (fuel : Nat) (dev : AlsaDevice) (st : AlsaState)
    (data : receiver_data) (cycles : List (AlsaDevice × receiver_data))
    (ht : data.timed_out = 0)
    (hchg : st.ao_data.receiver_format ≠ data.format)
    (hsz : ¬ supported_sample_size data.format.sample_size)
    (hcycles : ∀ c ∈ cycles, c.2.timed_out ≠ 0 ∨ c.2.format = data.format) :
    ∃ r, alsa_output_send dev fuel st data = Outcome.done r
      ∧ r.ret = 0
      ∧ r.calls = []
      ∧ r.state.ao_data.snd = st.ao_data.snd
      ∧ r.state.open_pcms = st.open_pcms
      ∧ r.state.ao_data.rate = 0
      ∧ r.state.ao_data.receiver_format = data.format
      ∧ ∃ st1 traces, run_cycles fuel r.state cycles = Outcome.done (st1, traces)
          ∧ traces.length = cycles.length
          ∧ (∀ tr ∈ traces, ∀ c ∈ tr, c.is_setup = false ∧ c.is_writei = false)
          ∧ (∀ tr ∈ traces, ∀ c ∈ tr, ∃ h, c = AlsaCall.close h) := by
  obtain ⟨a1, a2, _⟩ := apply_format_unsupported st.ao_data data.format hsz
  have hrec : reconfigure dev st data.format
      = ({ ao_data := (apply_format st.ao_data data.format).1, open_pcms := st.open_pcms }, []) := by
    rw [reconfigure_changed dev st data.format hchg, reopen_rate_zero _ _ _ _ _ a1]
  have hsend := send_no_write dev fuel st data ht (Or.inr (by rw [hrec]; exact a1))
  rw [hrec] at hsend
  obtain ⟨st1, traces, hrun, hlen, hall, _⟩ := run_cycles_rate_zero fuel data.format cycles
    { ao_data := (apply_format st.ao_data data.format).1, open_pcms := st.open_pcms }
    a1 (apply_format_format _ _) hcycles
  refine ⟨_, hsend, rfl, rfl, a2, rfl, a1, apply_format_format _ _, st1, traces, hrun, hlen,
    ?_, hall⟩
  intro tr htr c hc
  obtain ⟨h, rfl⟩ := hall tr htr c hc
  exact ⟨rfl, rfl⟩

/-- Witness of C6 as the code has it: an 8-bit packet after a 16-bit stream that
opened the device, followed by the same 8-bit packet and a timeout. -/
theorem unsupported_sample_size_suppresses_witness :
    ∃ r, alsa_output_send dev_ok 4
          (next_state dev_ok 4 (init_state 8 50 "default") (packet 0x90 16 2 3 16))
          (packet 0x90 8 2 3 16) = Outcome.done r
      ∧ r.ret = 0
      ∧ r.calls = []
      ∧ r.state.ao_data.snd
          = (next_state dev_ok 4 (init_state 8 50 "default") (packet 0x90 16 2 3 16)).ao_data.snd
      ∧ r.state.open_pcms
          = (next_state dev_ok 4 (init_state 8 50 "default") (packet 0x90 16 2 3 16)).open_pcms
      ∧ r.state.ao_data.rate = 0
      ∧ r.state.ao_data.receiver_format = (packet 0x90 8 2 3 16).format
      ∧ ∃ st1 traces, run_cycles 4 r.state
            [(dev_ok, packet 0x90 8 2 3 16), (dev_ok, timeout_after (packet 0x90 8 2 3 16))]
            = Outcome.done (st1, traces)
          ∧ traces.length
            = [(dev_ok, packet 0x90 8 2 3 16), (dev_ok, timeout_after (packet 0x90 8 2 3 16))].length
          ∧ (∀ tr ∈ traces, ∀ c ∈ tr, c.is_setup = false ∧ c.is_writei = false)
          ∧ (∀ tr ∈ traces, ∀ c ∈ tr, ∃ h, c = AlsaCall.close h) :=
  unsupported_sample_size_suppresses 4 dev_ok
    (next_state dev_ok 4 (init_state 8 50 "default") (packet 0x90 16 2 3 16))
    (packet 0x90 8 2 3 16)
    [(dev_ok, packet 0x90 8 2 3 16), (dev_ok, timeout_after (packet 0x90 8 2 3 16))]
    rfl (by decide) (by unfold supported_sample_size; decide)
    (by
      intro c hc
      simp only [List.mem_cons, List.mem_singleton, List.not_mem_nil, or_false] at hc
      rcases hc with rfl | rfl
      · exact Or.inr rfl
      · exact Or.inl (by decide))

/-- C6 fails on the code. After a 16-bit stereo packet opened the device as handle
7, an 8-bit packet leaves handle 7 in the state and open in the library: no
`close` call is made. -/
theorem unsupported_sample_size_keeps_handle :
    (alsa_output_send dev_ok 4
        (next_state dev_ok 4 (init_state 8 50 "default") (packet 0x90 16 2 3 16))
        (packet 0x90 8 2 3 16)).observe?
      = some { snd := some 7, rate := 0, bytes_per_sample := 2, open_pcms := [7],
               calls := [], ret := 0 }
    ∧ (next_state dev_ok 4 (init_state 8 50 "default") (packet 0x90 16 2 3 16)).ao_data.snd
      = some 7
    ∧ (next_state dev_ok 4 (init_state 8 50 "default")
        (packet 0x90 16 2 3 16)).ao_data.receiver_format ≠ (packet 0x90 8 2 3 16).format
    ∧ ¬ supported_sample_size (packet 0x90 8 2 3 16).format.sample_size := by
  refine ⟨by decide, by decide, by decide, ?_⟩
  unfold supported_sample_size
  decide

/-! ## Reopening and handle bookkeeping on concrete runs -/

/-- C5 on the code. A 16-bit stereo packet opens the device with `S16_LE`; a
timeout closes it and keeps the rate, the bytes per sample and the layout; the
same packet then reopens with the same rate, channel count and layout, but with
the local variable `format` unassigned (`none`) instead of `S16_LE`. -/
theorem reopen_passes_unassigned_format :
    (alsa_output_send dev_ok 4 (init_state 8 50 "default") (packet 0x90 16 2 3 16)).observe?
      = some { snd := some 7, rate := 705600, bytes_per_sample := 2, open_pcms := [7],
               calls := [AlsaCall.setup (some SND_PCM_FORMAT_S16_LE) 705600 50 "default" 2
                          [SND_CHMAP_FL, SND_CHMAP_FR] 0,
                         AlsaCall.writei 7 0 4 4],
               ret := 0 }
    ∧ (alsa_output_send dev_ok 4
        (next_state dev_ok 4 (init_state 8 50 "default") (packet 0x90 16 2 3 16))
        (timeout_after (packet 0x90 16 2 3 16))).observe?
      = some { snd := none, rate := 705600, bytes_per_sample := 2, open_pcms := [],
               calls := [AlsaCall.close 7], ret := 0 }
    ∧ (alsa_output_send dev_ok 4
        (next_state dev_ok 4
          (next_state dev_ok 4 (init_state 8 50 "default") (packet 0x90 16 2 3 16))
          (timeout_after (packet 0x90 16 2 3 16)))
        (packet 0x90 16 2 3 16)).observe?
      = some { snd := some 7, rate := 705600, bytes_per_sample := 2, open_pcms := [7],
               calls := [AlsaCall.setup none 705600 50 "default" 2
                          [SND_CHMAP_FL, SND_CHMAP_FR] 0,
                         AlsaCall.writei 7 0 4 4],
               ret := 0 } := by
  refine ⟨by decide, by decide, by decide⟩

/-- C9 on the code. The first packet meets a device that opens as handle 7 and
then rejects the parameters: `setup_alsa` returns -1 without closing, the state
holds no handle, and handle 7 is still open in the library. -/
theorem failed_setup_leaks_handle :
    (alsa_output_send dev_bad_params 4 (init_state 8 50 "default")
        (packet 0x90 16 2 3 16)).observe?
      = some { snd := none, rate := 0, bytes_per_sample := 2, open_pcms := [7],
               calls := [AlsaCall.setup (some SND_PCM_FORMAT_S16_LE) 705600 50 "default" 2
                          [SND_CHMAP_FL, SND_CHMAP_FR] (-1)],
               ret := 0 }
    ∧ (init_state 8 50 "default").open_pcms = [] := by
  refine ⟨by decide, rfl⟩

/-! ## Frame writer -/

theorem write_frames_complete (dev : AlsaDevice) (pcm bps ch : Nat) (samples : Int)
    (hdev : ∀ n off c, 0 < c →
      1 ≤ dev.snd_pcm_writei pcm n off c ∧ dev.snd_pcm_writei pcm n off c ≤ c) :
    ∀ (fuel n : Nat) (i : Int), i ≤ samples → (samples - i).toNat ≤ fuel →
      ∃ calls, write_frames dev pcm bps ch samples fuel n i = some (calls, 0)
        ∧ write_chain pcm bps ch samples i calls
        ∧ frames_written calls = samples - i := by
  intro fuel
  induction fuel with
  | zero =>
    intro n i hi hf
    have e : i = samples := by omega
    refine ⟨[], ?_, e, ?_⟩
    · unfold write_frames
      rw [if_neg (by omega)]
    · simp only [frames_written]
      omega
  | succ fuel ih =>
    intro n i hi hf
    by_cases hlt : i < samples
    · obtain ⟨w1, w2⟩ := hdev n (i * bps * ch) (samples - i) (by omega)
      obtain ⟨calls, hc1, hc2, hc3⟩ := ih (n + 1)
        (i + dev.snd_pcm_writei pcm n (i * bps * ch) (samples - i)) (by omega) (by omega)
      refine ⟨AlsaCall.writei pcm (i * bps * ch) (samples - i)
        (dev.snd_pcm_writei pcm n (i * bps * ch) (samples - i)) :: calls, ?_, ?_, ?_⟩
      · unfold write_frames
        simp only [if_pos hlt]
        rw [if_neg (by omega), hc1]
      · exact ⟨rfl, rfl, rfl, w1, w2, hc2⟩
      · simp only [frames_written, hc3]
        omega
    · have e : i = samples := by omega
      refine ⟨[], ?_, e, ?_⟩
      · unfold write_frames
        simp only [if_neg hlt]
      · simp only [frames_written]
        omega

/-- C7. Frame writer loop. When the write phase is reached with handle `pcm` (the
device is open after the reconfiguration, the rate is not 0, the divisor is not
0) and every write call succeeds and accepts between 1 and the requested number
of frames, then with `frameCount = audio_size / (bytes_per_sample * channels)`
the call returns 0, every write call is issued at byte offset
`i * bytes_per_sample * channels` for `frameCount - i` frames, where `i` is the
number of frames accepted by the calls before it, and the frames accepted sum to
`frameCount`. The end-to-end scenario of the design document is the last part. -/
theorem frame_writer_writes_all (dev : AlsaDevice) (fuel : Nat) (st : AlsaState)
    (data : receiver_data) (pcm : Nat)
    (ht : data.timed_out = 0)
    (hsnd : (reconfigure dev st data.format).1.ao_data.snd = some pcm)
    (hrate : (reconfigure dev st data.format).1.ao_data.rate ≠ 0)
    (hdiv : (reconfigure dev st data.format).1.ao_data.bytes_per_sample
      * data.format.channels ≠ 0)
    (hdev : ∀ n off c, 0 < c →
      1 ≤ dev.snd_pcm_writei pcm n off c ∧ dev.snd_pcm_writei pcm n off c ≤ c)
    (hfuel : data.audio_size / ((reconfigure dev st data.format).1.ao_data.bytes_per_sample
      * data.format.channels) ≤ fuel) :
    (∃ calls,
      alsa_output_send dev fuel st data
        = Outcome.done { state := (reconfigure dev st data.format).1,
                         calls := (reconfigure dev st data.format).2 ++ calls, ret := 0 }
      ∧ write_chain pcm (reconfigure dev st data.format).1.ao_data.bytes_per_sample
          data.format.channels
          ((data.audio_size / ((reconfigure dev st data.format).1.ao_data.bytes_per_sample
            * data.format.channels) : Nat) : Int) 0 calls
      ∧ frames_written calls
          = ((data.audio_size / ((reconfigure dev st data.format).1.ao_data.bytes_per_sample
              * data.format.channels) : Nat) : Int))
    ∧ (alsa_output_send dev_ok 4 (init_state 8 50 "default") (packet 0x90 16 2 0b011 16)).observe?
        = some { snd := some 7, rate := 705600, bytes_per_sample := 2, open_pcms := [7],
                 calls := [AlsaCall.setup (some SND_PCM_FORMAT_S16_LE) 705600 50 "default" 2
                            [SND_CHMAP_FL, SND_CHMAP_FR] 0,
                           AlsaCall.writei 7 0 4 4],
                 ret := 0 } := by
  refine ⟨?_, by decide⟩
  have hsend : ∀ calls, write_frames dev pcm
      (reconfigure dev st data.format).1.ao_data.bytes_per_sample data.format.channels
      ((data.audio_size / ((reconfigure dev st data.format).1.ao_data.bytes_per_sample
        * data.format.channels) : Nat) : Int) fuel 0 0 = some (calls, 0) →
      alsa_output_send dev fuel st data
        = Outcome.done { state := (reconfigure dev st data.format).1,
                         calls := (reconfigure dev st data.format).2 ++ calls, ret := 0 } := by
    intro calls h1
    unfold alsa_output_send
    have ht2 : ¬ data.timed_out ≠ 0 := by simp [ht]
    simp only [if_neg ht2, hsnd, if_neg hrate, if_neg hdiv, h1]
  generalize data.audio_size / ((reconfigure dev st data.format).1.ao_data.bytes_per_sample
    * data.format.channels) = q at hfuel hsend ⊢
  obtain ⟨calls, h1, h2, h3⟩ := write_frames_complete dev pcm
    (reconfigure dev st data.format).1.ao_data.bytes_per_sample data.format.channels
    (q : Int) hdev fuel 0 0 (by omega) (by omega)
  exact ⟨calls, hsend calls h1, h2, by rw [h3]; omega⟩

/-- Witness of C7: the end-to-end scenario with a device that takes one frame per
write call. -/
theorem frame_writer_writes_all_witness :
    ∃ calls,
      alsa_output_send dev_one_frame 4 (init_state 8 50 "default") (packet 0x90 16 2 0b011 16)
        = Outcome.done
          { state := (reconfigure dev_one_frame (init_state 8 50 "default")
              (packet 0x90 16 2 0b011 16).format).1,
            calls := (reconfigure dev_one_frame (init_state 8 50 "default")
              (packet 0x90 16 2 0b011 16).format).2 ++ calls,
            ret := 0 }
      ∧ write_chain 7 (reconfigure dev_one_frame (init_state 8 50 "default")
            (packet 0x90 16 2 0b011 16).format).1.ao_data.bytes_per_sample
          (packet 0x90 16 2 0b011 16).format.channels
          (((packet 0x90 16 2 0b011 16).audio_size
            / ((reconfigure dev_one_frame (init_state 8 50 "default")
                (packet 0x90 16 2 0b011 16).format).1.ao_data.bytes_per_sample
              * (packet 0x90 16 2 0b011 16).format.channels) : Nat) : Int) 0 calls
      ∧ frames_written calls
          = (((packet 0x90 16 2 0b011 16).audio_size
            / ((reconfigure dev_one_frame (init_state 8 50 "default")
                (packet 0x90 16 2 0b011 16).format).1.ao_data.bytes_per_sample
              * (packet 0x90 16 2 0b011 16).format.channels) : Nat) : Int) :=
  (frame_writer_writes_all dev_one_frame 4 (init_state 8 50 "default")
    (packet 0x90 16 2 0b011 16) 7 rfl (by decide) (by decide) (by decide)
    (by
      intro n off c hc
      show 1 ≤ (1 : Int) ∧ (1 : Int) ≤ c
      omega)
    (by decide)).1

/-! ## Frame-count divisor -/

theorem apply_format_inv (ao : alsa_output_data) (rf : receiver_format)
    (h : (apply_format ao rf).1.rate ≠ 0) :
    (rf.sample_size = 16 ∧ (apply_format ao rf).1.bytes_per_sample = 2)
    ∨ (rf.sample_size = 24 ∧ (apply_format ao rf).1.bytes_per_sample = 3)
    ∨ (rf.sample_size = 32 ∧ (apply_format ao rf).1.bytes_per_sample = 4) := by
  unfold apply_format at h ⊢
  simp only at h ⊢
  split_ifs at h ⊢ with h1 h2 h3
  · exact Or.inl ⟨h1, rfl⟩
  · exact Or.inr (Or.inl ⟨h2, rfl⟩)
  · exact Or.inr (Or.inr ⟨h3, rfl⟩)
  · exact absurd rfl h

theorem reconfigure_bytes_match (dev : AlsaDevice) (st : AlsaState) (rf : receiver_format)
    (ih : bytes_match st.ao_data) : bytes_match (reconfigure dev st rf).1.ao_data := by
  intro h
  by_cases hf : st.ao_data.receiver_format = rf
  · by_cases hs : st.ao_data.snd = none
    · rw [reconfigure_same_closed dev st rf hf hs] at h ⊢
      obtain ⟨k1, k2, _, _, _, k6⟩ := reopen_keeps dev st.open_pcms st.ao_data none rf
      rw [k1, k2]
      exact ih (by rw [← k6 h]; exact h)
    · rw [reconfigure_same_open dev st rf hf hs] at h ⊢
      exact ih h
  · rw [reconfigure_changed dev st rf hf] at h ⊢
    obtain ⟨k1, k2, _, _, _, k6⟩ := reopen_keeps dev st.open_pcms
      (apply_format st.ao_data rf).1 (apply_format st.ao_data rf).2 rf
    rw [k1, k2, apply_format_format]
    exact apply_format_inv _ _ (by rw [← k6 h]; exact h)

/-- In every reachable state a rate that is not 0 comes with a supported sample
size in the remembered format and the matching number of bytes per sample. -/
theorem reachable_bytes_match (max_channels : Nat) (lat : Int) (name : String)
    (st : AlsaState) (hreach : Reachable max_channels lat name st) :
    bytes_match st.ao_data := by
  induction hreach with
  | init =>
    intro h
    exact absurd rfl h
  | send dev fuel st data r _ hsend ih =>
    by_cases ht : data.timed_out = 0
    · obtain ⟨hstate, _⟩ := send_packet_done dev fuel st data r ht hsend
      rw [hstate]
      exact reconfigure_bytes_match dev st data.format ih
    · obtain ⟨r1, h1, _, _, k2, k3, k4, _⟩ := send_timeout dev fuel st data ht
      rw [hsend] at h1
      injection h1 with h1
      subst h1
      intro h
      rw [k3, k4]
      exact ih (by rw [← k2]; exact h)

/-- C10 as the code has it. In every state reachable from `alsa_output_init`, when
a packet cycle reaches the write phase (rate not 0 and a handle held after the
reconfiguration), `bytes_per_sample` is 2, 3 or 4 and equals the packet's
`sample_size / 8`; the divisor `bytes_per_sample * channels` is not 0 exactly when
the packet's channel count is not 0, and the call divides by zero exactly when
the channel count is 0. -/
theorem frame_count_divisor (max_channels : Nat) (lat : Int) (name : String)
    (st : AlsaState) (dev : AlsaDevice) (data : receiver_data)
    (hreach : Reachable max_channels lat name st)
    (ht : data.timed_out = 0)
    (hrate : (reconfigure dev st data.format).1.ao_data.rate ≠ 0)
    (hsnd : (reconfigure dev st data.format).1.ao_data.snd ≠ none) :
    ((reconfigure dev st data.format).1.ao_data.bytes_per_sample = 2
      ∨ (reconfigure dev st data.format).1.ao_data.bytes_per_sample = 3
      ∨ (reconfigure dev st data.format).1.ao_data.bytes_per_sample = 4)
    ∧ (reconfigure dev st data.format).1.ao_data.bytes_per_sample = data.format.sample_size / 8
    ∧ ((reconfigure dev st data.format).1.ao_data.bytes_per_sample * data.format.channels ≠ 0
        ↔ data.format.channels ≠ 0)
    ∧ (∀ fuel, alsa_output_send dev fuel st data = Outcome.division_by_zero
        ↔ data.format.channels = 0) := by
  have hm := reconfigure_bytes_match dev st data.format
    (reachable_bytes_match max_channels lat name st hreach) hrate
  rw [reconfigure_format] at hm
  have hb : (reconfigure dev st data.format).1.ao_data.bytes_per_sample ≠ 0 := by
    rcases hm with ⟨_, h⟩ | ⟨_, h⟩ | ⟨_, h⟩ <;> rw [h] <;> decide
  have hdiv : (reconfigure dev st data.format).1.ao_data.bytes_per_sample
      * data.format.channels = 0 ↔ data.format.channels = 0 := by
    rw [Nat.mul_eq_zero]
    exact ⟨fun h => h.resolve_left hb, Or.inr⟩
  refine ⟨?_, ?_, not_congr hdiv, ?_⟩
  · rcases hm with ⟨_, h⟩ | ⟨_, h⟩ | ⟨_, h⟩
    · exact Or.inl h
    · exact Or.inr (Or.inl h)
    · exact Or.inr (Or.inr h)
  · rcases hm with ⟨h1, h⟩ | ⟨h1, h⟩ | ⟨h1, h⟩ <;> rw [h, h1]
  · intro fuel
    rw [← hdiv]
    unfold alsa_output_send
    have ht2 : ¬ data.timed_out ≠ 0 := by simp [ht]
    simp only [if_neg ht2]
    cases hs : (reconfigure dev st data.format).1.ao_data.snd with
    | none => exact absurd hs hsnd
    | some pcm =>
      simp only [if_neg hrate]
      by_cases hz : (reconfigure dev st data.format).1.ao_data.bytes_per_sample
          * data.format.channels = 0
      · simp only [if_pos hz]
        exact ⟨fun _ => hz, fun _ => trivial⟩
      · simp only [if_neg hz]
        refine ⟨fun h => ?_, fun h => absurd h hz⟩
        revert h
        cases write_frames dev pcm (reconfigure dev st data.format).1.ao_data.bytes_per_sample
            data.format.channels
            (((data.audio_size / ((reconfigure dev st data.format).1.ao_data.bytes_per_sample
              * data.format.channels) : Nat) : Int)) fuel 0 0 with
        | none => intro h; cases h
        | some p => intro h; cases h

/-- Witness of C10 as the code has it: the end-to-end packet on the state after
`alsa_output_init`, with a device that opens. -/
theorem frame_count_divisor_witness :
    ((reconfigure dev_ok (init_state 8 50 "default")
        (packet 0x90 16 2 3 16).format).1.ao_data.bytes_per_sample = 2
      ∨ (reconfigure dev_ok (init_state 8 50 "default")
        (packet 0x90 16 2 3 16).format).1.ao_data.bytes_per_sample = 3
      ∨ (reconfigure dev_ok (init_state 8 50 "default")
        (packet 0x90 16 2 3 16).format).1.ao_data.bytes_per_sample = 4)
    ∧ (reconfigure dev_ok (init_state 8 50 "default")
        (packet 0x90 16 2 3 16).format).1.ao_data.bytes_per_sample
        = (packet 0x90 16 2 3 16).format.sample_size / 8
    ∧ ((reconfigure dev_ok (init_state 8 50 "default")
          (packet 0x90 16 2 3 16).format).1.ao_data.bytes_per_sample
          * (packet 0x90 16 2 3 16).format.channels ≠ 0
        ↔ (packet 0x90 16 2 3 16).format.channels ≠ 0)
    ∧ (∀ fuel, alsa_output_send dev_ok fuel (init_state 8 50 "default") (packet 0x90 16 2 3 16)
          = Outcome.division_by_zero
        ↔ (packet 0x90 16 2 3 16).format.channels = 0) :=
  frame_count_divisor 8 50 "default" (init_state 8 50 "default") dev_ok (packet 0x90 16 2 3 16)
    Reachable.init rfl (by decide) (by decide)

/-- C10 fails on the code. A packet with channel count 0, 16-bit samples and rate
code 1 on the state after `alsa_output_init`, with a device that accepts the open:
the write phase is reached (rate 48000, handle 7 held), the divisor
`bytes_per_sample * channels` is 0 and the call divides by zero. -/
theorem frame_count_divisor_zero_channels :
    Reachable 8 50 "default" (init_state 8 50 "default")
    ∧ (packet 1 16 0 3 16).timed_out = 0
    ∧ (reconfigure dev_ok (init_state 8 50 "default") (packet 1 16 0 3 16).format).1.ao_data.rate
        = 48000
    ∧ (reconfigure dev_ok (init_state 8 50 "default") (packet 1 16 0 3 16).format).1.ao_data.snd
        = some 7
    ∧ (reconfigure dev_ok (init_state 8 50 "default")
          (packet 1 16 0 3 16).format).1.ao_data.bytes_per_sample
        * (packet 1 16 0 3 16).format.channels = 0
    ∧ alsa_output_send dev_ok 4 (init_state 8 50 "default") (packet 1 16 0 3 16)
        = Outcome.division_by_zero :=
  ⟨Reachable.init, rfl, by decide, by decide, by decide, rfl⟩

end Scream
